import Mathlib

/-!
Verification of the turn-based grid simulation engine of the
run_from_cats bot (src/run_from_cats/__init__.py).

The engine is embedded shallowly: the mutable Python `Position` objects
become a Lean structure, the `GameField` grid becomes a list of lists of
positions, and the shared random source (`random.randint` /
`random.choice`) becomes an explicit stream of natural numbers from which
each draw takes the head modulo the requested range.  The unbounded
retry loops of the spawners are given explicit fuel and return `Option`.
-/

namespace RunFromCats

/-- Size of the game grid (source constant FIELD_SIZE, value 5). -/
def FIELD_SIZE : Nat := 5

/-- Middle index of the grid (source constant MIDDLE_POS). -/
def MIDDLE_POS : Nat := (FIELD_SIZE - 1) / 2

/-- Symbol stored in the cell holding the player (source PLAYER_SYMBOL). -/
def PLAYER_SYMBOL : String := "🙂"

/-- Symbol stored in a cell holding a cat (source CAT_SYMBOL). -/
def CAT_SYMBOL : String := "🐱"

/-- Symbol stored in a cell holding an obstacle (source OBSTACLE_SYMBOL). -/
def OBSTACLE_SYMBOL : String := "🌳"

/-- Symbol stored in an empty cell (source EMPTY_SYMBOL). -/
def EMPTY_SYMBOL : String := "🟩"

/-- Movement directions mapped to their opposites (source dict DIRECTIONS). -/
def DIRECTIONS : List (String × String) :=
  [("left", "right"), ("right", "left"), ("up", "down"), ("down", "up")]

/-- Cells around the player checked for cats (source POSITIONS_TO_CHECK_CATS). -/
def POSITIONS_TO_CHECK_CATS : List (Nat × Nat) :=
  [(MIDDLE_POS, MIDDLE_POS - 1),
   (MIDDLE_POS, MIDDLE_POS + 1),
   (MIDDLE_POS - 1, MIDDLE_POS),
   (MIDDLE_POS + 1, MIDDLE_POS)]

/-- A single cell of the game field (source class Position): row coordinate
`x`, column coordinate `y`, and the symbol `data` stored in the cell.
Coordinates are integers because the source transiently builds positions
with coordinates -1 and FIELD_SIZE during shifts. -/
structure Position where
  x : Int
  y : Int
  data : String
deriving DecidableEq

/-- Manhattan distance from a position to a coordinate pair
(source Position.manhattan, tuple branch). -/
def Position.manhattan (p : Position) (other : Int × Int) : Int :=
  |p.x - other.1| + |p.y - other.2|

/-- The game field: a list of rows of positions (source GameField.field_data). -/
abbrev Field := List (List Position)

/-- Default position returned for an out-of-range access.  The source never
performs an out-of-range read on a well-formed 5x5 field; the default only
keeps the embedding total. -/
def defaultPos : Position := { x := 0, y := 0, data := EMPTY_SYMBOL }

/-- Read the cell at row `x`, column `y` (source self[x][y]). -/
def getPos (f : Field) (x y : Nat) : Position :=
  (f.getD x []).getD y defaultPos

/-- Replace the element at index `i` by its image under `g`, leaving the
list unchanged when `i` is out of range.  Models in-place mutation of one
element of a Python list. -/
def listModify : List α → Nat → (α → α) → List α
  | [], _, _ => []
  | a :: as, 0, g => g a :: as
  | a :: as, Nat.succ n, g => a :: listModify as n g

/-- Write symbol `s` into the cell at row `x`, column `y`
(source self[x][y].data = s). -/
def setData (f : Field) (x y : Nat) (s : String) : Field :=
  listModify f x (fun row => listModify row y (fun p => { p with data := s }))

/-- Apply `g` to the first `n` elements of a list.  Models the source loops
`for col in range(n): ...` that renumber coordinates of row prefixes. -/
def mapFirst (n : Nat) (g : α → α) : List α → List α
  | [] => []
  | a :: as =>
    match n with
    | 0 => a :: as
    | Nat.succ m => g a :: mapFirst m g as

/-- The list [g 0, g 1, ..., g (n-1)].  Models building a list by a Python
loop `for i in range(n)`. -/
def natList (n : Nat) (g : Nat → α) : List α :=
  (List.range n).map g

/-- One draw from the random stream: the head of the stream reduced into
the range 0..n-1, together with the rest of the stream.  Models one call
of random.randint(0, n-1) or random.choice over a list of length n. -/
def draw (n : Nat) (rng : List Nat) : Nat × List Nat :=
  (rng.headD 0 % n, rng.tail)

/-- Helper loop of generate_row: `for i in range(k)` pick a random cell of
the row and mark it an obstacle (source random.choice(result).data = OBSTACLE). -/
def rowObstaclePass (row : List Position) (k : Nat) (rng : List Nat) :
    List Position × List Nat :=
  match k with
  | 0 => (row, rng)
  | Nat.succ m =>
    let d := draw row.length rng
    rowObstaclePass (listModify row d.1 (fun p => { p with data := OBSTACLE_SYMBOL })) m d.2

/-- Generate a single row with random obstacles
(source GameField.generate_row). -/
def generate_row (row_index : Int) (rng : List Nat) : List Position × List Nat :=
  let result := natList FIELD_SIZE (fun col => Position.mk row_index (Int.ofNat col) EMPTY_SYMBOL)
  rowObstaclePass result (FIELD_SIZE / 3) rng

/-- Create an empty field and place the player in the center
(source GameField.generate_clear). -/
def generate_clear : Field :=
  let result : Field :=
    natList FIELD_SIZE (fun row =>
      natList FIELD_SIZE (fun col => Position.mk (Int.ofNat row) (Int.ofNat col) EMPTY_SYMBOL))
  setData result MIDDLE_POS MIDDLE_POS PLAYER_SYMBOL

/-- Retry loop of generate_cats (source GameField.generate_cats): pick a
random coordinate, pick one of the four edge cells sharing it, reject a
non-empty cell or a cell at Manhattan distance below 2 from the player,
otherwise place a cat; repeat until `number` cats are placed.  The source
loop is unbounded, so the embedding takes fuel and returns none when the
fuel runs out before the requested cats are placed. -/
def generate_cats_loop (f : Field) (number : Nat) (rng : List Nat) (fuel : Nat) :
    Option (Field × List Nat) :=
  if number = 0 then some (f, rng)
  else
    match fuel with
    | 0 => none
    | Nat.succ fuel =>
      let d1 := draw FIELD_SIZE rng
      let random_coordinate := d1.1
      let possible_cats_positions : List (Nat × Nat) :=
        [(0, random_coordinate),
         (FIELD_SIZE - 1, random_coordinate),
         (random_coordinate, 0),
         (random_coordinate, FIELD_SIZE - 1)]
      let d2 := draw possible_cats_positions.length d1.2
      let pos := possible_cats_positions.getD d2.1 (0, 0)
      if (getPos f pos.1 pos.2).data ≠ EMPTY_SYMBOL then
        generate_cats_loop f number d2.2 fuel
      else if (getPos f MIDDLE_POS MIDDLE_POS).manhattan (Int.ofNat pos.1, Int.ofNat pos.2) < 2 then
        generate_cats_loop f number d2.2 fuel
      else
        generate_cats_loop (setData f pos.1 pos.2 CAT_SYMBOL) (number - 1) d2.2 fuel

/-- Spawn cats with the source default count of one
(source GameField.generate_cats with number = 1). -/
def generate_cats (f : Field) (rng : List Nat) (fuel : Nat) : Option (Field × List Nat) :=
  generate_cats_loop f 1 rng fuel

/-- Retry loop of generate_obstacles (source GameField.generate_obstacles):
pick a uniformly random cell of the whole field, reject a non-empty cell,
otherwise place an obstacle; repeat until `obstacles_number` obstacles are
placed.  Fuel models the unbounded source loop. -/
def generate_obstacles_loop (f : Field) (obstacles_number : Nat) (rng : List Nat)
    (fuel : Nat) : Option (Field × List Nat) :=
  if obstacles_number = 0 then some (f, rng)
  else
    match fuel with
    | 0 => none
    | Nat.succ fuel =>
      let dx := draw FIELD_SIZE rng
      let dy := draw FIELD_SIZE dx.2
      if (getPos f dx.1 dy.1).data ≠ EMPTY_SYMBOL then
        generate_obstacles_loop f obstacles_number dy.2 fuel
      else
        generate_obstacles_loop (setData f dx.1 dy.1 OBSTACLE_SYMBOL) (obstacles_number - 1) dy.2 fuel

/-- Spawn obstacles with the source default count of three
(source GameField.generate_obstacles with obstacles_number = 3). -/
def generate_obstacles (f : Field) (rng : List Nat) (fuel : Nat) : Option (Field × List Nat) :=
  generate_obstacles_loop f 3 rng fuel

/-- Construct a fresh game field (source GameField.__init__): clear field
with centered player, then one cat, then three obstacles. -/
def GameField_init (rng : List Nat) (fuel : Nat) : Option Field :=
  match generate_cats generate_clear rng fuel with
  | none => none
  | some fr =>
    match generate_obstacles fr.1 fr.2 fuel with
    | none => none
    | some fr2 => some fr2.1

/-- Decrement the y coordinate of a position (source self[row][col].y -= 1). -/
def decY (p : Position) : Position := { p with y := p.y - 1 }

/-- Increment the y coordinate of a position (source self[row][col].y += 1). -/
def incY (p : Position) : Position := { p with y := p.y + 1 }

/-- Decrement the x coordinate of a position (source self[row][col].x -= 1). -/
def decX (p : Position) : Position := { p with x := p.x - 1 }

/-- Increment the x coordinate of a position (source self[row][col].x += 1). -/
def incX (p : Position) : Position := { p with x := p.x + 1 }

/-- The 'left' branch of move_objects: every row drops its first cell,
gains a fresh empty cell (built with column coordinate FIELD_SIZE), and
the first FIELD_SIZE cells of the new row get their y decremented. -/
def shiftRowsLeft (f : Field) : Field :=
  natList FIELD_SIZE (fun row =>
    mapFirst FIELD_SIZE decY
      ((f.getD row []).drop 1 ++ [Position.mk (Int.ofNat row) (Int.ofNat FIELD_SIZE) EMPTY_SYMBOL]))

/-- The 'right' branch of move_objects: every row gains a fresh empty cell
in front (built with column coordinate -1), drops its last cell, and the
first FIELD_SIZE cells of the new row get their y incremented. -/
def shiftRowsRight (f : Field) : Field :=
  natList FIELD_SIZE (fun row =>
    mapFirst FIELD_SIZE incY
      (Position.mk (Int.ofNat row) (-1) EMPTY_SYMBOL :: (f.getD row []).dropLast))

/-- The row-shifting part of the 'up' branch of move_objects: rows 1..4
move one row up and only the first FIELD_SIZE - 1 cells of each moved row
get their x decremented (the source loop is `for col in range(FIELD_SIZE - 1)`);
the vacated last row is regenerated by generate_row. -/
def shiftRowsUp (f : Field) (rng : List Nat) : Field × List Nat :=
  let moved := natList (FIELD_SIZE - 1) (fun row =>
    mapFirst (FIELD_SIZE - 1) decX (f.getD (row + 1) []))
  let gr := generate_row (Int.ofNat (FIELD_SIZE - 1)) rng
  (moved ++ [gr.1], gr.2)

/-- The row-shifting part of the 'down' branch of move_objects: rows 0..3
move one row down and only the first FIELD_SIZE - 1 cells of each moved
row get their x incremented (the source loop is
`for col in range(FIELD_SIZE - 1)`); the vacated first row is regenerated
by generate_row. -/
def shiftRowsDown (f : Field) (rng : List Nat) : Field × List Nat :=
  let moved := natList (FIELD_SIZE - 1) (fun row =>
    mapFirst (FIELD_SIZE - 1) incX (f.getD row []))
  let gr := generate_row 0 rng
  (gr.1 :: moved, gr.2)

/-- The obstacle loop after a horizontal shift (source `for i in range(2)`):
pick a random row and unconditionally write an obstacle into its cell at
column `colIdx`. -/
def edgeObstacles (f : Field) (colIdx : Nat) (k : Nat) (rng : List Nat) :
    Field × List Nat :=
  match k with
  | 0 => (f, rng)
  | Nat.succ m =>
    let d := draw FIELD_SIZE rng
    edgeObstacles (setData f d.1 colIdx OBSTACLE_SYMBOL) colIdx m d.2

/-- Move all objects on the field for the given shift direction
(source GameField.move_objects): remove the player from the center, shift
depending on the direction, then put the player back at the center. -/
def move_objects (f : Field) (direction : String) (rng : List Nat) : Field × List Nat :=
  let f0 := setData f MIDDLE_POS MIDDLE_POS EMPTY_SYMBOL
  let shifted :=
    if direction = "left" then edgeObstacles (shiftRowsLeft f0) (FIELD_SIZE - 1) 2 rng
    else if direction = "right" then edgeObstacles (shiftRowsRight f0) 0 2 rng
    else if direction = "up" then shiftRowsUp f0 rng
    else if direction = "down" then shiftRowsDown f0 rng
    else (f0, rng)
  (setData shifted.1 MIDDLE_POS MIDDLE_POS PLAYER_SYMBOL, shifted.2)

/-- The candidate destinations of a cat other than staying in place, in
source order: left, right, up, down (tail of positions_to_check in
GameField.move_cat). -/
def cat_candidates (cat_row cat_column : Nat) : List (Int × Int) :=
  [((cat_row : Int), (cat_column : Int) - 1),
   ((cat_row : Int), (cat_column : Int) + 1),
   ((cat_row : Int) - 1, (cat_column : Int)),
   ((cat_row : Int) + 1, (cat_column : Int))]

/-- One step of the candidate scan in GameField.move_cat: skip an
off-board candidate, skip a non-empty candidate, and otherwise keep the
candidate exactly when its Manhattan distance to the center cell is
strictly below the best distance so far. -/
def catStep (f : Field) (acc : (Int × Int) × Int) (position : Int × Int) :
    (Int × Int) × Int :=
  if position.1 < 0 ∨ position.1 ≥ (FIELD_SIZE : Int) ∨
     position.2 < 0 ∨ position.2 ≥ (FIELD_SIZE : Int) then acc
  else if (getPos f position.1.toNat position.2.toNat).data ≠ EMPTY_SYMBOL then acc
  else
    let new_distance := (getPos f MIDDLE_POS MIDDLE_POS).manhattan position
    if new_distance < acc.2 then (position, new_distance) else acc

/-- The destination a cat selects, together with its recorded distance
(the scan over positions_to_check in GameField.move_cat, starting from the
cat's own cell and its distance). -/
def chooseTarget (f : Field) (cat_row cat_column : Nat) : (Int × Int) × Int :=
  let current_position : Int × Int := ((cat_row : Int), (cat_column : Int))
  let current_distance := (getPos f MIDDLE_POS MIDDLE_POS).manhattan current_position
  (cat_candidates cat_row cat_column).foldl (catStep f) (current_position, current_distance)

/-- Move one cat one step (source GameField.move_cat): clear the cat's
cell, then write a cat into the selected destination. -/
def move_cat (f : Field) (cat_row cat_column : Nat) : Field :=
  let chosen := (chooseTarget f cat_row cat_column).1
  let f1 := setData f cat_row cat_column EMPTY_SYMBOL
  setData f1 chosen.1.toNat chosen.2.toNat CAT_SYMBOL

/-- Game-over test (source GameField.is_game_over): a cat stands in one of
the four cells orthogonally adjacent to the center. -/
def is_game_over (f : Field) : Bool :=
  POSITIONS_TO_CHECK_CATS.any (fun xy => (getPos f xy.1 xy.2).data == CAT_SYMBOL)

/-- Row-major list of all cell coordinates, as scanned by the nested loops
of GameField.proceed_cats_turn. -/
def scan_cells : List (Nat × Nat) :=
  (natList FIELD_SIZE (fun row => natList FIELD_SIZE (fun col => (row, col)))).flatten

/-- The scanning loop of GameField.proceed_cats_turn over the remaining
cell coordinates: a cell currently holding a cat gets its cat moved, and
the loop returns early as soon as the game is over. -/
def proceed_go (f : Field) : List (Nat × Nat) → Field
  | [] => f
  | rc :: rest =>
    if (getPos f rc.1 rc.2).data = CAT_SYMBOL then
      let f1 := move_cat f rc.1 rc.2
      if is_game_over f1 then f1 else proceed_go f1 rest
    else proceed_go f rest

/-- Process all cat movements for one turn (source GameField.proceed_cats_turn). -/
def proceed_cats_turn (f : Field) : Field :=
  proceed_go f scan_cells

/-- Move the player (source GameField.move_player): reject an unknown
direction with an error, and shift the world in the opposite direction only
when the adjacent cell in the requested direction is empty. -/
def move_player (f : Field) (direction : String) (rng : List Nat) :
    Except String (Field × List Nat) :=
  if (DIRECTIONS.lookup direction).isNone then Except.error "invalid direction"
  else if direction = "left" then
    if (getPos f MIDDLE_POS (MIDDLE_POS - 1)).data = EMPTY_SYMBOL then
      Except.ok (move_objects f ((DIRECTIONS.lookup direction).getD "") rng)
    else Except.ok (f, rng)
  else if direction = "right" then
    if (getPos f MIDDLE_POS (MIDDLE_POS + 1)).data = EMPTY_SYMBOL then
      Except.ok (move_objects f ((DIRECTIONS.lookup direction).getD "") rng)
    else Except.ok (f, rng)
  else if direction = "up" then
    if (getPos f (MIDDLE_POS - 1) MIDDLE_POS).data = EMPTY_SYMBOL then
      Except.ok (move_objects f ((DIRECTIONS.lookup direction).getD "") rng)
    else Except.ok (f, rng)
  else if direction = "down" then
    if (getPos f (MIDDLE_POS + 1) MIDDLE_POS).data = EMPTY_SYMBOL then
      Except.ok (move_objects f ((DIRECTIONS.lookup direction).getD "") rng)
    else Except.ok (f, rng)
  else Except.ok (f, rng)

/-- The board content of a field as the renderer sees it: the grid of cell
symbols, in row-major order (the cells interpolated into FIELD_MESSAGE and
NAVIGATED_MESSAGE by Bot.proceed_message). -/
def render (f : Field) : List (List String) :=
  f.map (fun row => row.map (fun p => p.data))

/-- One full turn of the '/left' | '/right' | '/up' | '/down' branch of
Bot.proceed_message: move the player, process the cats, then spawn one new
cat unconditionally.  An invalid direction propagates as none; none also
reports spawn fuel running out. -/
def proceed_turn (f : Field) (direction : String) (rng : List Nat) (fuel : Nat) :
    Option (Field × List Nat) :=
  match move_player f direction rng with
  | Except.error _ => none
  | Except.ok fr => generate_cats (proceed_cats_turn fr.1) fr.2 fuel

/-- Number of cells of the field holding the given symbol. -/
def countSymbol (f : Field) (s : String) : Nat :=
  (f.map (fun row => row.countP (fun p => p.data == s))).sum

/-- Number of cats on the field. -/
def countCats (f : Field) : Nat := countSymbol f CAT_SYMBOL

/-- Number of obstacles on the field. -/
def countObstacles (f : Field) : Nat := countSymbol f OBSTACLE_SYMBOL

/-- Well-formedness of a field: exactly FIELD_SIZE rows of FIELD_SIZE cells. -/
def Wf (f : Field) : Prop :=
  f.length = FIELD_SIZE ∧ ∀ i : Nat, i < FIELD_SIZE → (f.getD i []).length = FIELD_SIZE

/-- No cell of the field holds the player symbol (the transient state while
move_objects has removed the player from the center). -/
def NoPlayer (f : Field) : Prop :=
  ∀ x : Nat, x < FIELD_SIZE → ∀ y : Nat, y < FIELD_SIZE →
    (getPos f x y).data ≠ PLAYER_SYMBOL

/-- The player invariant: a cell holds the player symbol exactly when it is
the center cell. -/
def PlayerInv (f : Field) : Prop :=
  ∀ x : Nat, x < FIELD_SIZE → ∀ y : Nat, y < FIELD_SIZE →
    ((getPos f x y).data = PLAYER_SYMBOL ↔ (x = MIDDLE_POS ∧ y = MIDDLE_POS))

/-- Fields reachable from a fresh game by the turn operations: game field
construction, player moves, cat turns and cat spawning. -/
inductive Reachable : Field → Prop where
  | init (rng : List Nat) (fuel : Nat) (f : Field) :
      GameField_init rng fuel = some f → Reachable f
  | move (f : Field) (d : String) (rng rng' : List Nat) (f' : Field) :
      Reachable f → move_player f d rng = Except.ok (f', rng') → Reachable f'
  | cats (f : Field) : Reachable f → Reachable (proceed_cats_turn f)
  | gen (f : Field) (rng rng' : List Nat) (fuel : Nat) (f' : Field) :
      Reachable f → generate_cats f rng fuel = some (f', rng') → Reachable f'

instance (f : Field) : Decidable (Wf f) := by
  unfold Wf; infer_instance

instance (f : Field) : Decidable (PlayerInv f) := by
  unfold PlayerInv; infer_instance

instance (f : Field) : Decidable (NoPlayer f) := by
  unfold NoPlayer; infer_instance

/-! ### Basic list lemmas for the embedding primitives -/

theorem listModify_length (l : List α) (i : Nat) (g : α → α) :
    (listModify l i g).length = l.length := by
  induction l generalizing i with
  | nil => rfl
  | cons a as ih =>
    cases i with
    | zero => rfl
    | succ n => simp [listModify, ih]

theorem listModify_oob (l : List α) (i : Nat) (g : α → α) (h : l.length ≤ i) :
    listModify l i g = l := by
  induction l generalizing i with
  | nil => rfl
  | cons a as ih =>
    cases i with
    | zero => exact absurd h (by simp)
    | succ n =>
      simp only [List.length_cons, Nat.succ_le_succ_iff] at h
      simp [listModify, ih n h]

theorem getD_listModify_ne (l : List α) (i j : Nat) (g : α → α) (d : α) (h : j ≠ i) :
    (listModify l i g).getD j d = l.getD j d := by
  induction l generalizing i j with
  | nil => rfl
  | cons a as ih =>
    cases i with
    | zero =>
      cases j with
      | zero => exact absurd rfl h
      | succ m => simp [listModify]
    | succ n =>
      cases j with
      | zero => simp [listModify]
      | succ m =>
        simp only [listModify, List.getD_cons_succ]
        exact ih n m (fun hc => h (by rw [hc]))

theorem getD_listModify_self (l : List α) (i : Nat) (g : α → α) (d : α)
    (h : i < l.length) : (listModify l i g).getD i d = g (l.getD i d) := by
  induction l generalizing i with
  | nil => exact absurd h (by simp)
  | cons a as ih =>
    cases i with
    | zero => rfl
    | succ n =>
      simp only [listModify, List.getD_cons_succ]
      exact ih n (by simpa using h)

theorem mapFirst_length (n : Nat) (g : α → α) (l : List α) :
    (mapFirst n g l).length = l.length := by
  induction l generalizing n with
  | nil => simp [mapFirst]
  | cons a as ih =>
    cases n with
    | zero => simp [mapFirst]
    | succ m => simp [mapFirst, ih]

theorem getD_mapFirst (n j : Nat) (g : α → α) (l : List α) (d : α) :
    (mapFirst n g l).getD j d =
      if j < n ∧ j < l.length then g (l.getD j d) else l.getD j d := by
  induction l generalizing n j with
  | nil => simp [mapFirst]
  | cons a as ih =>
    cases n with
    | zero => simp [mapFirst]
    | succ m =>
      cases j with
      | zero => simp [mapFirst]
      | succ k =>
        simp only [mapFirst, List.getD_cons_succ, ih m k]
        by_cases h1 : k < m <;> by_cases h2 : k < as.length <;>
          simp [h1, h2, Nat.succ_lt_succ_iff]

theorem natList_length (n : Nat) (g : Nat → α) : (natList n g).length = n := by
  simp [natList]

theorem getD_natList (n j : Nat) (g : Nat → α) (d : α) :
    (natList n g).getD j d = if j < n then g j else d := by
  unfold natList
  simp only [List.getD_eq_getElem?_getD, List.getElem?_map]
  split
  · rw [List.getElem?_range (by assumption)]; rfl
  · rw [List.getElem?_eq_none (by simpa using Nat.le_of_not_lt (by assumption))]; rfl

theorem getD_mem (l : List α) (j : Nat) (d : α) (h : j < l.length) :
    l.getD j d ∈ l := by
  induction l generalizing j with
  | nil => exact absurd h (by simp)
  | cons a as ih =>
    cases j with
    | zero => simp
    | succ k =>
      simp only [List.getD_cons_succ]
      exact List.mem_cons_of_mem _ (ih k (by simpa using h))

theorem getD_oob (l : List α) (j : Nat) (d : α) (h : l.length ≤ j) :
    l.getD j d = d := by
  induction l generalizing j with
  | nil => rfl
  | cons a as ih =>
    cases j with
    | zero => exact absurd h (by simp)
    | succ k =>
      simp only [List.getD_cons_succ]
      exact ih k (by simpa using h)

theorem getD_drop (l : List α) (m j : Nat) (d : α) :
    (l.drop m).getD j d = l.getD (m + j) d := by
  induction l generalizing m with
  | nil => simp
  | cons a as ih =>
    cases m with
    | zero => simp
    | succ k =>
      simp only [List.drop_succ_cons, ih k]
      have : k + 1 + j = (k + j) + 1 := by omega
      rw [this, List.getD_cons_succ]

theorem getD_dropLast (l : List α) (j : Nat) (d : α) (h : j < l.length - 1) :
    l.dropLast.getD j d = l.getD j d := by
  induction l generalizing j with
  | nil => simp
  | cons a as ih =>
    cases as with
    | nil => simp at h
    | cons b bs =>
      cases j with
      | zero => simp [List.dropLast]
      | succ k =>
        simp only [List.dropLast_cons₂, List.getD_cons_succ]
        exact ih k (by simp at h ⊢; omega)

/-! ### Reading and writing single cells -/

theorem getPos_setData_ne (f : Field) (x y : Nat) (s : String) (a b : Nat)
    (h : ¬(a = x ∧ b = y)) : getPos (setData f x y s) a b = getPos f a b := by
  unfold getPos setData
  by_cases hax : a = x
  · subst hax
    have hby : b ≠ y := fun hb => h ⟨rfl, hb⟩
    by_cases hlen : a < f.length
    · rw [getD_listModify_self f a _ [] hlen, getD_listModify_ne _ y b _ _ hby]
    · rw [listModify_oob f a _ (Nat.le_of_not_lt hlen)]
  · rw [getD_listModify_ne f x a _ [] hax]

theorem getPos_setData_self (f : Field) (x y : Nat) (s : String)
    (hx : x < f.length) (hy : y < (f.getD x []).length) :
    getPos (setData f x y s) x y = { getPos f x y with data := s } := by
  unfold getPos setData
  rw [getD_listModify_self f x _ [] hx, getD_listModify_self _ y _ defaultPos hy]

theorem getPos_setData_cases (f : Field) (x y : Nat) (s : String) (a b : Nat) :
    getPos (setData f x y s) a b = getPos f a b ∨
      getPos (setData f x y s) a b = { getPos f a b with data := s } := by
  by_cases h : a = x ∧ b = y
  · obtain ⟨rfl, rfl⟩ := h
    by_cases hx : a < f.length
    · by_cases hy : b < (f.getD a []).length
      · exact Or.inr (getPos_setData_self f a b s hx hy)
      · left
        unfold getPos setData
        rw [getD_listModify_self f a _ [] hx,
            listModify_oob _ b _ (Nat.le_of_not_lt hy)]
    · left
      unfold getPos setData
      rw [listModify_oob f a _ (Nat.le_of_not_lt hx)]
  · exact Or.inl (getPos_setData_ne f x y s a b h)

theorem Wf_setData (f : Field) (x y : Nat) (s : String) (hw : Wf f) :
    Wf (setData f x y s) := by
  obtain ⟨hlen, hrows⟩ := hw
  constructor
  · unfold setData
    rw [listModify_length, hlen]
  · intro i hi
    unfold setData
    by_cases hix : i = x
    · subst hix
      by_cases hlt : i < f.length
      · rw [getD_listModify_self f i _ [] hlt, listModify_length]
        exact hrows i hi
      · rw [listModify_oob f i _ (Nat.le_of_not_lt hlt)]
        exact hrows i hi
    · rw [getD_listModify_ne f x i _ [] hix]
      exact hrows i hi

theorem PlayerInv_setData (f : Field) (x y : Nat) (s : String)
    (hp : PlayerInv f) (hs : s ≠ PLAYER_SYMBOL)
    (hxy : ¬(x = MIDDLE_POS ∧ y = MIDDLE_POS)) : PlayerInv (setData f x y s) := by
  intro a ha b hb
  constructor
  · intro hP
    rcases getPos_setData_cases f x y s a b with h | h
    · exact ((hp a ha b hb).mp (h ▸ hP))
    · rw [h] at hP
      exact absurd hP hs
  · rintro ⟨rfl, rfl⟩
    rw [getPos_setData_ne f x y s MIDDLE_POS MIDDLE_POS
      (fun hc => hxy ⟨hc.1.symm, hc.2.symm⟩)]
    exact (hp MIDDLE_POS ha MIDDLE_POS hb).mpr ⟨rfl, rfl⟩

theorem NoPlayer_setData (f : Field) (x y : Nat) (s : String)
    (hn : NoPlayer f) (hs : s ≠ PLAYER_SYMBOL) : NoPlayer (setData f x y s) := by
  intro a ha b hb
  rcases getPos_setData_cases f x y s a b with h | h
  · rw [h]; exact hn a ha b hb
  · rw [h]; exact hs

theorem center_row_bound (f : Field) (hw : Wf f) : MIDDLE_POS < f.length := by
  rw [hw.1]; decide

theorem center_col_bound (f : Field) (hw : Wf f) :
    MIDDLE_POS < (f.getD MIDDLE_POS []).length := by
  rw [hw.2 MIDDLE_POS (by decide)]; decide

theorem NoPlayer_center_cleared (f : Field) (hw : Wf f) (hp : PlayerInv f) :
    NoPlayer (setData f MIDDLE_POS MIDDLE_POS EMPTY_SYMBOL) := by
  intro a ha b hb
  by_cases h : a = MIDDLE_POS ∧ b = MIDDLE_POS
  · obtain ⟨rfl, rfl⟩ := h
    rw [getPos_setData_self f MIDDLE_POS MIDDLE_POS EMPTY_SYMBOL
      (center_row_bound f hw) (center_col_bound f hw)]
    intro hP
    have hPe : EMPTY_SYMBOL = PLAYER_SYMBOL := hP
    exact absurd hPe (by decide)
  · rw [getPos_setData_ne f _ _ _ a b h]
    intro hP
    exact h ((hp a ha b hb).mp hP)

theorem PlayerInv_restore (f : Field) (hw : Wf f) (hn : NoPlayer f) :
    PlayerInv (setData f MIDDLE_POS MIDDLE_POS PLAYER_SYMBOL) := by
  intro a ha b hb
  constructor
  · intro hP
    by_contra hne
    rw [getPos_setData_ne f _ _ _ a b hne] at hP
    exact hn a ha b hb hP
  · rintro ⟨rfl, rfl⟩
    rw [getPos_setData_self f MIDDLE_POS MIDDLE_POS PLAYER_SYMBOL
      (center_row_bound f hw) (center_col_bound f hw)]

/-! ### Unfolding the spawn loops one step at a time -/

/-- The edge cell a single iteration of generate_cats draws from the random
stream (the two draws of the source loop body combined). -/
def catSpawnPos (rng : List Nat) : Nat × Nat :=
  ([(0, rng.headD 0 % FIELD_SIZE),
    (FIELD_SIZE - 1, rng.headD 0 % FIELD_SIZE),
    (rng.headD 0 % FIELD_SIZE, 0),
    (rng.headD 0 % FIELD_SIZE, FIELD_SIZE - 1)] : List (Nat × Nat)).getD
    (rng.tail.headD 0 % 4) (0, 0)

theorem generate_cats_loop_zero (f : Field) (number : Nat) (rng : List Nat) :
    generate_cats_loop f number rng 0 =
      if number = 0 then some (f, rng) else none := rfl

theorem generate_cats_loop_succ (f : Field) (number : Nat) (rng : List Nat) (m : Nat) :
    generate_cats_loop f number rng (Nat.succ m) =
      if number = 0 then some (f, rng)
      else
        if (getPos f (catSpawnPos rng).1 (catSpawnPos rng).2).data ≠ EMPTY_SYMBOL then
          generate_cats_loop f number rng.tail.tail m
        else if (getPos f MIDDLE_POS MIDDLE_POS).manhattan
            (Int.ofNat (catSpawnPos rng).1, Int.ofNat (catSpawnPos rng).2) < 2 then
          generate_cats_loop f number rng.tail.tail m
        else
          generate_cats_loop (setData f (catSpawnPos rng).1 (catSpawnPos rng).2 CAT_SYMBOL)
            (number - 1) rng.tail.tail m := rfl

/-- The cell a single iteration of generate_obstacles draws from the random
stream (the two randint calls of the source loop body). -/
def obstacleSpawnPos (rng : List Nat) : Nat × Nat :=
  (rng.headD 0 % FIELD_SIZE, rng.tail.headD 0 % FIELD_SIZE)

theorem generate_obstacles_loop_zero (f : Field) (number : Nat) (rng : List Nat) :
    generate_obstacles_loop f number rng 0 =
      if number = 0 then some (f, rng) else none := rfl

theorem generate_obstacles_loop_succ (f : Field) (number : Nat) (rng : List Nat)
    (m : Nat) :
    generate_obstacles_loop f number rng (Nat.succ m) =
      if number = 0 then some (f, rng)
      else
        if (getPos f (obstacleSpawnPos rng).1 (obstacleSpawnPos rng).2).data ≠ EMPTY_SYMBOL then
          generate_obstacles_loop f number rng.tail.tail m
        else
          generate_obstacles_loop
            (setData f (obstacleSpawnPos rng).1 (obstacleSpawnPos rng).2 OBSTACLE_SYMBOL)
            (number - 1) rng.tail.tail m := rfl

theorem getD_spawnlist_lt (rc : Nat) (hrc : rc < FIELD_SIZE) (i : Nat) :
    ((([(0, rc), (FIELD_SIZE - 1, rc), (rc, 0), (rc, FIELD_SIZE - 1)] :
      List (Nat × Nat)).getD i (0, 0)).1 < FIELD_SIZE ∧
     (((([(0, rc), (FIELD_SIZE - 1, rc), (rc, 0), (rc, FIELD_SIZE - 1)]) :
      List (Nat × Nat)).getD i (0, 0)).2 < FIELD_SIZE)) := by
  rcases i with _ | _ | _ | _ | n
  · exact ⟨(by decide : (0 : Nat) < FIELD_SIZE), hrc⟩
  · exact ⟨(by decide : FIELD_SIZE - 1 < FIELD_SIZE), hrc⟩
  · exact ⟨hrc, (by decide : (0 : Nat) < FIELD_SIZE)⟩
  · exact ⟨hrc, (by decide : FIELD_SIZE - 1 < FIELD_SIZE)⟩
  · have hd : (([(0, rc), (FIELD_SIZE - 1, rc), (rc, 0), (rc, FIELD_SIZE - 1)] :
        List (Nat × Nat)).getD (n + 1 + 1 + 1 + 1) (0, 0)) = (0, 0) := by
      apply getD_oob
      simp
    rw [hd]
    exact ⟨by decide, by decide⟩

theorem catSpawnPos_lt (rng : List Nat) :
    (catSpawnPos rng).1 < FIELD_SIZE ∧ (catSpawnPos rng).2 < FIELD_SIZE := by
  unfold catSpawnPos
  exact getD_spawnlist_lt _ (Nat.mod_lt _ (by decide)) _

theorem obstacleSpawnPos_lt (rng : List Nat) :
    (obstacleSpawnPos rng).1 < FIELD_SIZE ∧ (obstacleSpawnPos rng).2 < FIELD_SIZE :=
  ⟨Nat.mod_lt _ (by decide), Nat.mod_lt _ (by decide)⟩

/-! ### The spawn loops preserve the player invariant -/

theorem spawn_target_not_center (f : Field) (x y : Nat) (hp : PlayerInv f)
    (hE : (getPos f x y).data = EMPTY_SYMBOL) :
    ¬(x = MIDDLE_POS ∧ y = MIDDLE_POS) := by
  rintro ⟨rfl, rfl⟩
  have hP : (getPos f MIDDLE_POS MIDDLE_POS).data = PLAYER_SYMBOL :=
    (hp MIDDLE_POS (by decide) MIDDLE_POS (by decide)).mpr ⟨rfl, rfl⟩
  rw [hE] at hP
  exact absurd hP (by decide)

theorem generate_cats_loop_inv (fuel : Nat) :
    ∀ (f : Field) (number : Nat) (rng rng' : List Nat) (f' : Field),
      Wf f → PlayerInv f →
      generate_cats_loop f number rng fuel = some (f', rng') →
      Wf f' ∧ PlayerInv f' := by
  induction fuel with
  | zero =>
    intro f number rng rng' f' hw hp heq
    rw [generate_cats_loop_zero] at heq
    by_cases hn : number = 0
    · rw [if_pos hn] at heq
      obtain ⟨rfl, rfl⟩ := Prod.mk.inj (Option.some.inj heq)
      exact ⟨hw, hp⟩
    · rw [if_neg hn] at heq
      exact absurd heq (by simp)
  | succ m ih =>
    intro f number rng rng' f' hw hp heq
    rw [generate_cats_loop_succ] at heq
    by_cases hn : number = 0
    · rw [if_pos hn] at heq
      obtain ⟨rfl, rfl⟩ := Prod.mk.inj (Option.some.inj heq)
      exact ⟨hw, hp⟩
    · rw [if_neg hn] at heq
      split_ifs at heq with h1 h2
      · exact ih f number _ rng' f' hw hp heq
      · exact ih f number _ rng' f' hw hp heq
      · have hE : (getPos f (catSpawnPos rng).1 (catSpawnPos rng).2).data = EMPTY_SYMBOL :=
          not_not.mp h1
        exact ih _ _ _ rng' f' (Wf_setData f _ _ _ hw)
          (PlayerInv_setData f _ _ _ hp (by decide)
            (spawn_target_not_center f _ _ hp hE)) heq

theorem generate_obstacles_loop_inv (fuel : Nat) :
    ∀ (f : Field) (number : Nat) (rng rng' : List Nat) (f' : Field),
      Wf f → PlayerInv f →
      generate_obstacles_loop f number rng fuel = some (f', rng') →
      Wf f' ∧ PlayerInv f' := by
  induction fuel with
  | zero =>
    intro f number rng rng' f' hw hp heq
    rw [generate_obstacles_loop_zero] at heq
    by_cases hn : number = 0
    · rw [if_pos hn] at heq
      obtain ⟨rfl, rfl⟩ := Prod.mk.inj (Option.some.inj heq)
      exact ⟨hw, hp⟩
    · rw [if_neg hn] at heq
      exact absurd heq (by simp)
  | succ m ih =>
    intro f number rng rng' f' hw hp heq
    rw [generate_obstacles_loop_succ] at heq
    by_cases hn : number = 0
    · rw [if_pos hn] at heq
      obtain ⟨rfl, rfl⟩ := Prod.mk.inj (Option.some.inj heq)
      exact ⟨hw, hp⟩
    · rw [if_neg hn] at heq
      split_ifs at heq with h1
      · exact ih f number _ rng' f' hw hp heq
      · have hE : (getPos f (obstacleSpawnPos rng).1 (obstacleSpawnPos rng).2).data
            = EMPTY_SYMBOL := not_not.mp h1
        exact ih _ _ _ rng' f' (Wf_setData f _ _ _ hw)
          (PlayerInv_setData f _ _ _ hp (by decide)
            (spawn_target_not_center f _ _ hp hE)) heq

/-! ### Row generation -/

theorem decY_data (p : Position) : (decY p).data = p.data := rfl

theorem incY_data (p : Position) : (incY p).data = p.data := rfl

theorem decX_data (p : Position) : (decX p).data = p.data := rfl

theorem incX_data (p : Position) : (incX p).data = p.data := rfl

theorem rowObstaclePass_length (k : Nat) :
    ∀ (row : List Position) (rng : List Nat),
      ((rowObstaclePass row k rng).1).length = row.length := by
  induction k with
  | zero => intro row rng; rfl
  | succ m ih =>
    intro row rng
    unfold rowObstaclePass
    rw [ih, listModify_length]

theorem getD_rowObstaclePass (k : Nat) :
    ∀ (row : List Position) (rng : List Nat) (j : Nat),
      ((rowObstaclePass row k rng).1.getD j defaultPos).x = (row.getD j defaultPos).x ∧
      ((rowObstaclePass row k rng).1.getD j defaultPos).y = (row.getD j defaultPos).y ∧
      (((rowObstaclePass row k rng).1.getD j defaultPos).data = (row.getD j defaultPos).data ∨
       ((rowObstaclePass row k rng).1.getD j defaultPos).data = OBSTACLE_SYMBOL) := by
  induction k with
  | zero => intro row rng j; exact ⟨rfl, rfl, Or.inl rfl⟩
  | succ m ih =>
    intro row rng j
    unfold rowObstaclePass
    have step := ih (listModify row ((draw row.length rng).1)
      (fun p => { p with data := OBSTACLE_SYMBOL })) (draw row.length rng).2 j
    have hmod : (listModify row ((draw row.length rng).1)
        (fun p => { p with data := OBSTACLE_SYMBOL })).getD j defaultPos
          = row.getD j defaultPos ∨
        (listModify row ((draw row.length rng).1)
        (fun p => { p with data := OBSTACLE_SYMBOL })).getD j defaultPos
          = { row.getD j defaultPos with data := OBSTACLE_SYMBOL } := by
      by_cases hj : j = (draw row.length rng).1
      · by_cases hlt : j < row.length
        · right
          rw [hj]
          exact getD_listModify_self row _ _ defaultPos (hj ▸ hlt)
        · left
          rw [listModify_oob row _ _ (hj ▸ (Nat.le_of_not_lt hlt))]
      · left
        exact getD_listModify_ne row _ j _ defaultPos hj
    rcases hmod with hmod | hmod <;> rw [hmod] at step
    · exact step
    · refine ⟨step.1, step.2.1, ?_⟩
      rcases step.2.2 with h | h
      · exact Or.inr h
      · exact Or.inr h

theorem getD_mapFirst_lt (n j : Nat) (g : α → α) (l : List α) (d : α)
    (h1 : j < n) (h2 : j < l.length) :
    (mapFirst n g l).getD j d = g (l.getD j d) := by
  rw [getD_mapFirst, if_pos ⟨h1, h2⟩]

theorem getD_mapFirst_ge (n j : Nat) (g : α → α) (l : List α) (d : α)
    (h : n ≤ j) :
    (mapFirst n g l).getD j d = l.getD j d := by
  rw [getD_mapFirst, if_neg (fun hc => absurd hc.1 (by omega))]

theorem generate_row_length (r : Int) (rng : List Nat) :
    ((generate_row r rng).1).length = FIELD_SIZE := by
  unfold generate_row
  rw [rowObstaclePass_length, natList_length]

theorem generate_row_cell (r : Int) (rng : List Nat) (j : Nat) (hj : j < FIELD_SIZE) :
    ((generate_row r rng).1.getD j defaultPos).x = r ∧
    ((generate_row r rng).1.getD j defaultPos).y = (j : Int) ∧
    (((generate_row r rng).1.getD j defaultPos).data = EMPTY_SYMBOL ∨
     ((generate_row r rng).1.getD j defaultPos).data = OBSTACLE_SYMBOL) := by
  unfold generate_row
  have base := getD_rowObstaclePass (FIELD_SIZE / 3)
    (natList FIELD_SIZE (fun col => Position.mk r (Int.ofNat col) EMPTY_SYMBOL)) rng j
  rw [getD_natList, if_pos hj] at base
  exact base

/-! ### Cell-level description of the four shift branches -/

theorem getPos_shiftRowsLeft (f : Field) (hw : Wf f) (a b : Nat)
    (ha : a < FIELD_SIZE) (hb : b < FIELD_SIZE - 1) :
    getPos (shiftRowsLeft f) a b = decY (getPos f a (b + 1)) := by
  unfold shiftRowsLeft getPos
  rw [getD_natList, if_pos ha]
  have hdl : ((f.getD a []).drop 1).length = FIELD_SIZE - 1 := by
    rw [List.length_drop, hw.2 a ha]
  have hlen : ((f.getD a []).drop 1 ++
      [Position.mk (Int.ofNat a) (Int.ofNat FIELD_SIZE) EMPTY_SYMBOL]).length = FIELD_SIZE := by
    rw [List.length_append, hdl]
    rfl
  have h2 : b < ((f.getD a []).drop 1 ++
      [Position.mk (Int.ofNat a) (Int.ofNat FIELD_SIZE) EMPTY_SYMBOL]).length := by
    rw [hlen]; omega
  rw [getD_mapFirst_lt _ _ _ _ _ (by omega) h2]
  have hidx : b < ((f.getD a []).drop 1).length := by rw [hdl]; omega
  rw [List.getD_append _ _ _ _ hidx]
  rw [getD_drop, Nat.add_comm 1 b]

theorem getPos_shiftRowsLeft_last (f : Field) (hw : Wf f) (a : Nat)
    (ha : a < FIELD_SIZE) :
    getPos (shiftRowsLeft f) a (FIELD_SIZE - 1) =
      { x := Int.ofNat a, y := (FIELD_SIZE : Int) - 1, data := EMPTY_SYMBOL } := by
  unfold shiftRowsLeft getPos
  rw [getD_natList, if_pos ha]
  have hdl : ((f.getD a []).drop 1).length = FIELD_SIZE - 1 := by
    rw [List.length_drop, hw.2 a ha]
  have hlen : ((f.getD a []).drop 1 ++
      [Position.mk (Int.ofNat a) (Int.ofNat FIELD_SIZE) EMPTY_SYMBOL]).length = FIELD_SIZE := by
    rw [List.length_append, hdl]
    rfl
  have h2 : FIELD_SIZE - 1 < ((f.getD a []).drop 1 ++
      [Position.mk (Int.ofNat a) (Int.ofNat FIELD_SIZE) EMPTY_SYMBOL]).length := by
    rw [hlen]; decide
  rw [getD_mapFirst_lt _ _ _ _ _ (by decide) h2]
  have hge : ((f.getD a []).drop 1).length ≤ FIELD_SIZE - 1 := by rw [hdl]
  rw [List.getD_append_right _ _ _ _ hge, hdl, Nat.sub_self]
  rfl

theorem getPos_shiftRowsRight_zero (f : Field) (hw : Wf f) (a : Nat)
    (ha : a < FIELD_SIZE) :
    getPos (shiftRowsRight f) a 0 =
      { x := Int.ofNat a, y := 0, data := EMPTY_SYMBOL } := by
  unfold shiftRowsRight getPos
  rw [getD_natList, if_pos ha]
  rw [getD_mapFirst_lt _ _ _ _ _ (by decide) (by simp)]
  simp only [List.getD_cons_zero]
  unfold incY
  simp

theorem getPos_shiftRowsRight (f : Field) (hw : Wf f) (a b : Nat)
    (ha : a < FIELD_SIZE) (hb0 : 0 < b) (hb : b < FIELD_SIZE) :
    getPos (shiftRowsRight f) a b = incY (getPos f a (b - 1)) := by
  unfold shiftRowsRight getPos
  rw [getD_natList, if_pos ha]
  obtain ⟨c, rfl⟩ : ∃ c, b = c + 1 := ⟨b - 1, by omega⟩
  have hlen : (Position.mk (Int.ofNat a) (-1) EMPTY_SYMBOL ::
      (f.getD a []).dropLast).length = FIELD_SIZE := by
    rw [List.length_cons, List.length_dropLast, hw.2 a ha]
    decide
  have h2 : c + 1 < (Position.mk (Int.ofNat a) (-1) EMPTY_SYMBOL ::
      (f.getD a []).dropLast).length := by
    rw [hlen]; omega
  rw [getD_mapFirst_lt _ _ _ _ _ hb h2]
  rw [List.getD_cons_succ]
  rw [getD_dropLast _ _ _ (by rw [hw.2 a ha]; omega)]
  simp

theorem getPos_shiftRowsUp_moved (f : Field) (rng : List Nat) (hw : Wf f) (a b : Nat)
    (ha : a < FIELD_SIZE - 1) (hb : b < FIELD_SIZE - 1) :
    getPos (shiftRowsUp f rng).1 a b = decX (getPos f (a + 1) b) := by
  unfold shiftRowsUp getPos
  have hidx : a < (natList (FIELD_SIZE - 1) (fun row =>
      mapFirst (FIELD_SIZE - 1) decX (f.getD (row + 1) []))).length := by
    rw [natList_length]; exact ha
  rw [List.getD_append _ _ _ _ hidx]
  rw [getD_natList, if_pos ha]
  rw [getD_mapFirst_lt _ _ _ _ _ hb (by rw [hw.2 (a + 1) (by omega)]; omega)]

theorem getPos_shiftRowsUp_movedLast (f : Field) (rng : List Nat) (hw : Wf f) (a : Nat)
    (ha : a < FIELD_SIZE - 1) :
    getPos (shiftRowsUp f rng).1 a (FIELD_SIZE - 1) =
      getPos f (a + 1) (FIELD_SIZE - 1) := by
  unfold shiftRowsUp getPos
  have hidx : a < (natList (FIELD_SIZE - 1) (fun row =>
      mapFirst (FIELD_SIZE - 1) decX (f.getD (row + 1) []))).length := by
    rw [natList_length]; exact ha
  rw [List.getD_append _ _ _ _ hidx]
  rw [getD_natList, if_pos ha]
  rw [getD_mapFirst_ge _ _ _ _ _ (Nat.le_refl _)]

theorem getPos_shiftRowsUp_newrow (f : Field) (rng : List Nat) (b : Nat) :
    getPos (shiftRowsUp f rng).1 (FIELD_SIZE - 1) b =
      (generate_row (Int.ofNat (FIELD_SIZE - 1)) rng).1.getD b defaultPos := by
  unfold shiftRowsUp getPos
  have hge : (natList (FIELD_SIZE - 1) (fun row =>
      mapFirst (FIELD_SIZE - 1) decX (f.getD (row + 1) []))).length ≤ FIELD_SIZE - 1 := by
    rw [natList_length]
  rw [List.getD_append_right _ _ _ _ hge, natList_length, Nat.sub_self]
  rfl

theorem getPos_shiftRowsDown_newrow (f : Field) (rng : List Nat) (b : Nat) :
    getPos (shiftRowsDown f rng).1 0 b =
      (generate_row 0 rng).1.getD b defaultPos := by
  unfold shiftRowsDown getPos
  rfl

theorem getPos_shiftRowsDown_moved (f : Field) (rng : List Nat) (hw : Wf f) (a b : Nat)
    (ha0 : 0 < a) (ha : a < FIELD_SIZE) (hb : b < FIELD_SIZE - 1) :
    getPos (shiftRowsDown f rng).1 a b = incX (getPos f (a - 1) b) := by
  unfold shiftRowsDown getPos
  obtain ⟨c, rfl⟩ : ∃ c, a = c + 1 := ⟨a - 1, by omega⟩
  rw [List.getD_cons_succ]
  rw [getD_natList, if_pos (by omega : c < FIELD_SIZE - 1)]
  rw [getD_mapFirst_lt _ _ _ _ _ hb (by rw [hw.2 c (by omega)]; omega)]
  simp

theorem getPos_shiftRowsDown_movedLast (f : Field) (rng : List Nat) (hw : Wf f) (a : Nat)
    (ha0 : 0 < a) (ha : a < FIELD_SIZE) :
    getPos (shiftRowsDown f rng).1 a (FIELD_SIZE - 1) =
      getPos f (a - 1) (FIELD_SIZE - 1) := by
  unfold shiftRowsDown getPos
  obtain ⟨c, rfl⟩ : ∃ c, a = c + 1 := ⟨a - 1, by omega⟩
  rw [List.getD_cons_succ]
  rw [getD_natList, if_pos (by omega : c < FIELD_SIZE - 1)]
  rw [getD_mapFirst_ge _ _ _ _ _ (Nat.le_refl _)]
  simp

/-! ### Well-formedness of the shifted fields -/

theorem Wf_shiftRowsLeft (f : Field) (hw : Wf f) : Wf (shiftRowsLeft f) := by
  constructor
  · unfold shiftRowsLeft; rw [natList_length]
  · intro i hi
    unfold shiftRowsLeft
    rw [getD_natList, if_pos hi, mapFirst_length, List.length_append, List.length_drop,
      hw.2 i hi]
    rfl

theorem Wf_shiftRowsRight (f : Field) (hw : Wf f) : Wf (shiftRowsRight f) := by
  constructor
  · unfold shiftRowsRight; rw [natList_length]
  · intro i hi
    unfold shiftRowsRight
    rw [getD_natList, if_pos hi, mapFirst_length, List.length_cons, List.length_dropLast,
      hw.2 i hi]
    decide

theorem Wf_shiftRowsUp (f : Field) (rng : List Nat) (hw : Wf f) :
    Wf (shiftRowsUp f rng).1 := by
  constructor
  · unfold shiftRowsUp
    rw [List.length_append, natList_length]
    rfl
  · intro i hi
    by_cases hlt : i < FIELD_SIZE - 1
    · unfold shiftRowsUp
      have hidx : i < (natList (FIELD_SIZE - 1) (fun row =>
          mapFirst (FIELD_SIZE - 1) decX (f.getD (row + 1) []))).length := by
        rw [natList_length]; exact hlt
      rw [List.getD_append _ _ _ _ hidx, getD_natList, if_pos hlt, mapFirst_length]
      exact hw.2 (i + 1) (by omega)
    · have hieq : i = FIELD_SIZE - 1 := by omega
      subst hieq
      unfold shiftRowsUp
      have hge : (natList (FIELD_SIZE - 1) (fun row =>
          mapFirst (FIELD_SIZE - 1) decX (f.getD (row + 1) []))).length ≤ FIELD_SIZE - 1 := by
        rw [natList_length]
      rw [List.getD_append_right _ _ _ _ hge, natList_length, Nat.sub_self,
        List.getD_cons_zero]
      exact generate_row_length _ rng

theorem Wf_shiftRowsDown (f : Field) (rng : List Nat) (hw : Wf f) :
    Wf (shiftRowsDown f rng).1 := by
  constructor
  · unfold shiftRowsDown
    rw [List.length_cons, natList_length]
    decide
  · intro i hi
    rcases i with _ | c
    · unfold shiftRowsDown
      rw [List.getD_cons_zero]
      exact generate_row_length 0 rng
    · unfold shiftRowsDown
      rw [List.getD_cons_succ, getD_natList,
        if_pos (by omega : c < FIELD_SIZE - 1), mapFirst_length]
      exact hw.2 c (by omega)

theorem Wf_edgeObstacles (k : Nat) :
    ∀ (f : Field) (colIdx : Nat) (rng : List Nat), Wf f →
      Wf (edgeObstacles f colIdx k rng).1 := by
  induction k with
  | zero => intro f c rng hw; exact hw
  | succ m ih =>
    intro f c rng hw
    unfold edgeObstacles
    exact ih _ _ _ (Wf_setData f _ _ _ hw)

theorem NoPlayer_edgeObstacles (k : Nat) :
    ∀ (f : Field) (colIdx : Nat) (rng : List Nat), NoPlayer f →
      NoPlayer (edgeObstacles f colIdx k rng).1 := by
  induction k with
  | zero => intro f c rng hn; exact hn
  | succ m ih =>
    intro f c rng hn
    unfold edgeObstacles
    exact ih _ _ _ (NoPlayer_setData f _ _ _ hn (by decide))

/-! ### No shift branch creates a player symbol -/

theorem NoPlayer_shiftRowsLeft (f : Field) (hw : Wf f) (hn : NoPlayer f) :
    NoPlayer (shiftRowsLeft f) := by
  intro a ha b hb
  by_cases hb4 : b < FIELD_SIZE - 1
  · rw [getPos_shiftRowsLeft f hw a b ha hb4, decY_data]
    exact hn a ha (b + 1) (by omega)
  · have hbe : b = FIELD_SIZE - 1 := by omega
    subst hbe
    rw [getPos_shiftRowsLeft_last f hw a ha]
    intro hP
    have hPe : EMPTY_SYMBOL = PLAYER_SYMBOL := hP
    exact absurd hPe (by decide)

theorem NoPlayer_shiftRowsRight (f : Field) (hw : Wf f) (hn : NoPlayer f) :
    NoPlayer (shiftRowsRight f) := by
  intro a ha b hb
  rcases Nat.eq_zero_or_pos b with hb0 | hb0
  · subst hb0
    rw [getPos_shiftRowsRight_zero f hw a ha]
    intro hP
    have hPe : EMPTY_SYMBOL = PLAYER_SYMBOL := hP
    exact absurd hPe (by decide)
  · rw [getPos_shiftRowsRight f hw a b ha hb0 hb, incY_data]
    exact hn a ha (b - 1) (by omega)

theorem NoPlayer_shiftRowsUp (f : Field) (rng : List Nat) (hw : Wf f) (hn : NoPlayer f) :
    NoPlayer (shiftRowsUp f rng).1 := by
  intro a ha b hb
  by_cases ha4 : a < FIELD_SIZE - 1
  · by_cases hb4 : b < FIELD_SIZE - 1
    · rw [getPos_shiftRowsUp_moved f rng hw a b ha4 hb4, decX_data]
      exact hn (a + 1) (by omega) b hb
    · have hbe : b = FIELD_SIZE - 1 := by omega
      subst hbe
      rw [getPos_shiftRowsUp_movedLast f rng hw a ha4]
      exact hn (a + 1) (by omega) (FIELD_SIZE - 1) (by omega)
  · have hae : a = FIELD_SIZE - 1 := by omega
    subst hae
    rw [getPos_shiftRowsUp_newrow f rng b]
    rcases (generate_row_cell (Int.ofNat (FIELD_SIZE - 1)) rng b hb).2.2 with h | h <;>
      · rw [h]; decide

theorem NoPlayer_shiftRowsDown (f : Field) (rng : List Nat) (hw : Wf f) (hn : NoPlayer f) :
    NoPlayer (shiftRowsDown f rng).1 := by
  intro a ha b hb
  rcases Nat.eq_zero_or_pos a with ha0 | ha0
  · subst ha0
    rw [getPos_shiftRowsDown_newrow f rng b]
    rcases (generate_row_cell 0 rng b hb).2.2 with h | h <;>
      · rw [h]; decide
  · by_cases hb4 : b < FIELD_SIZE - 1
    · rw [getPos_shiftRowsDown_moved f rng hw a b ha0 ha hb4, incX_data]
      exact hn (a - 1) (by omega) b hb
    · have hbe : b = FIELD_SIZE - 1 := by omega
      subst hbe
      rw [getPos_shiftRowsDown_movedLast f rng hw a ha0 ha]
      exact hn (a - 1) (by omega) (FIELD_SIZE - 1) (by omega)

/-! ### move_objects preserves the player invariant -/

theorem move_objects_inv (f : Field) (d : String) (rng : List Nat)
    (hw : Wf f) (hp : PlayerInv f) :
    Wf (move_objects f d rng).1 ∧ PlayerInv (move_objects f d rng).1 := by
  have hw0 : Wf (setData f MIDDLE_POS MIDDLE_POS EMPTY_SYMBOL) := Wf_setData f _ _ _ hw
  have hn0 : NoPlayer (setData f MIDDLE_POS MIDDLE_POS EMPTY_SYMBOL) :=
    NoPlayer_center_cleared f hw hp
  simp only [move_objects]
  split_ifs with h1 h2 h3 h4
  · have hwS := Wf_edgeObstacles 2 (shiftRowsLeft (setData f MIDDLE_POS MIDDLE_POS
      EMPTY_SYMBOL)) (FIELD_SIZE - 1) rng (Wf_shiftRowsLeft _ hw0)
    have hnS := NoPlayer_edgeObstacles 2 (shiftRowsLeft (setData f MIDDLE_POS MIDDLE_POS
      EMPTY_SYMBOL)) (FIELD_SIZE - 1) rng (NoPlayer_shiftRowsLeft _ hw0 hn0)
    exact ⟨Wf_setData _ _ _ _ hwS, PlayerInv_restore _ hwS hnS⟩
  · have hwS := Wf_edgeObstacles 2 (shiftRowsRight (setData f MIDDLE_POS MIDDLE_POS
      EMPTY_SYMBOL)) 0 rng (Wf_shiftRowsRight _ hw0)
    have hnS := NoPlayer_edgeObstacles 2 (shiftRowsRight (setData f MIDDLE_POS MIDDLE_POS
      EMPTY_SYMBOL)) 0 rng (NoPlayer_shiftRowsRight _ hw0 hn0)
    exact ⟨Wf_setData _ _ _ _ hwS, PlayerInv_restore _ hwS hnS⟩
  · have hwS := Wf_shiftRowsUp (setData f MIDDLE_POS MIDDLE_POS EMPTY_SYMBOL) rng hw0
    have hnS := NoPlayer_shiftRowsUp (setData f MIDDLE_POS MIDDLE_POS EMPTY_SYMBOL)
      rng hw0 hn0
    exact ⟨Wf_setData _ _ _ _ hwS, PlayerInv_restore _ hwS hnS⟩
  · have hwS := Wf_shiftRowsDown (setData f MIDDLE_POS MIDDLE_POS EMPTY_SYMBOL) rng hw0
    have hnS := NoPlayer_shiftRowsDown (setData f MIDDLE_POS MIDDLE_POS EMPTY_SYMBOL)
      rng hw0 hn0
    exact ⟨Wf_setData _ _ _ _ hwS, PlayerInv_restore _ hwS hnS⟩
  · exact ⟨Wf_setData _ _ _ _ hw0, PlayerInv_restore _ hw0 hn0⟩

/-! ### The cat destination is the origin or an empty in-range cell -/

theorem foldl_inv {β : Type} (g : β → Int × Int → β) (Q : β → Prop)
    (hstep : ∀ b q, Q b → Q (g b q)) :
    ∀ (l : List (Int × Int)) (b : β), Q b → Q (l.foldl g b) := by
  intro l
  induction l with
  | nil => intro b hb; exact hb
  | cons a as ih =>
    intro b hb
    exact ih (g b a) (hstep b a hb)

theorem catStep_cases (f : Field) (acc : (Int × Int) × Int) (q : Int × Int) :
    (catStep f acc q).1 = acc.1 ∨
      (0 ≤ q.1 ∧ q.1 < (FIELD_SIZE : Int) ∧ 0 ≤ q.2 ∧ q.2 < (FIELD_SIZE : Int) ∧
       (getPos f q.1.toNat q.2.toNat).data = EMPTY_SYMBOL ∧ (catStep f acc q).1 = q) := by
  unfold catStep
  split_ifs with h1 h2
  · exact Or.inl rfl
  · exact Or.inl rfl
  · by_cases h3 : (getPos f MIDDLE_POS MIDDLE_POS).manhattan q < acc.2
    · push_neg at h1
      exact Or.inr ⟨h1.1, h1.2.1, h1.2.2.1, h1.2.2.2, not_not.mp h2, by simp [h3]⟩
    · left
      simp [h3]

theorem chooseTarget_spec (f : Field) (r c : Nat) :
    (chooseTarget f r c).1 = ((r : Int), (c : Int)) ∨
      (0 ≤ (chooseTarget f r c).1.1 ∧ (chooseTarget f r c).1.1 < (FIELD_SIZE : Int) ∧
       0 ≤ (chooseTarget f r c).1.2 ∧ (chooseTarget f r c).1.2 < (FIELD_SIZE : Int) ∧
       (getPos f (chooseTarget f r c).1.1.toNat (chooseTarget f r c).1.2.toNat).data
         = EMPTY_SYMBOL) := by
  unfold chooseTarget
  apply foldl_inv (catStep f)
    (fun acc => acc.1 = ((r : Int), (c : Int)) ∨
      (0 ≤ acc.1.1 ∧ acc.1.1 < (FIELD_SIZE : Int) ∧
       0 ≤ acc.1.2 ∧ acc.1.2 < (FIELD_SIZE : Int) ∧
       (getPos f acc.1.1.toNat acc.1.2.toNat).data = EMPTY_SYMBOL))
  · intro b q hb
    rcases catStep_cases f b q with h | h
    · rw [h]; exact hb
    · right
      rw [h.2.2.2.2.2]
      exact ⟨h.1, h.2.1, h.2.2.1, h.2.2.2.1, h.2.2.2.2.1⟩
  · exact Or.inl rfl

theorem move_cat_target_not_center (f : Field) (r c : Nat) (hp : PlayerInv f)
    (hcat : (getPos f r c).data = CAT_SYMBOL) :
    ¬((chooseTarget f r c).1.1.toNat = MIDDLE_POS ∧
      (chooseTarget f r c).1.2.toNat = MIDDLE_POS) := by
  rcases chooseTarget_spec f r c with h | h
  · rw [h]
    intro hcc
    obtain ⟨rfl, rfl⟩ : r = MIDDLE_POS ∧ c = MIDDLE_POS := by
      constructor
      · have := hcc.1; omega
      · have := hcc.2; omega
    have hP := (hp MIDDLE_POS (by decide) MIDDLE_POS (by decide)).mpr ⟨rfl, rfl⟩
    rw [hcat] at hP
    exact absurd hP (by decide)
  · exact spawn_target_not_center f _ _ hp h.2.2.2.2

theorem move_cat_origin_not_center (f : Field) (r c : Nat) (hp : PlayerInv f)
    (hcat : (getPos f r c).data = CAT_SYMBOL) :
    ¬(r = MIDDLE_POS ∧ c = MIDDLE_POS) := by
  rintro ⟨rfl, rfl⟩
  have hP := (hp MIDDLE_POS (by decide) MIDDLE_POS (by decide)).mpr ⟨rfl, rfl⟩
  rw [hcat] at hP
  exact absurd hP (by decide)

theorem move_cat_inv (f : Field) (r c : Nat) (hw : Wf f) (hp : PlayerInv f)
    (hcat : (getPos f r c).data = CAT_SYMBOL) :
    Wf (move_cat f r c) ∧ PlayerInv (move_cat f r c) := by
  unfold move_cat
  refine ⟨Wf_setData _ _ _ _ (Wf_setData f _ _ _ hw), ?_⟩
  apply PlayerInv_setData
  · exact PlayerInv_setData f r c EMPTY_SYMBOL hp (by decide)
      (move_cat_origin_not_center f r c hp hcat)
  · decide
  · exact move_cat_target_not_center f r c hp hcat

theorem getPos_move_cat_other (f : Field) (r c a b : Nat)
    (hne : ¬(a = r ∧ b = c)) (hdata : (getPos f a b).data ≠ EMPTY_SYMBOL) :
    getPos (move_cat f r c) a b = getPos f a b := by
  unfold move_cat
  have htarget : ¬(a = (chooseTarget f r c).1.1.toNat ∧
      b = (chooseTarget f r c).1.2.toNat) := by
    rcases chooseTarget_spec f r c with h | h
    · rw [h]
      intro hab
      exact hne ⟨by simpa using hab.1, by simpa using hab.2⟩
    · rintro ⟨rfl, rfl⟩
      exact hdata h.2.2.2.2
  rw [getPos_setData_ne _ _ _ _ a b htarget, getPos_setData_ne f r c _ a b hne]

/-! ### The cats-turn scan preserves the player invariant -/

theorem proceed_go_inv (cells : List (Nat × Nat)) :
    ∀ f : Field, Wf f → PlayerInv f →
      Wf (proceed_go f cells) ∧ PlayerInv (proceed_go f cells) := by
  induction cells with
  | nil => intro f hw hp; exact ⟨hw, hp⟩
  | cons rc rest ih =>
    intro f hw hp
    simp only [proceed_go]
    split_ifs with h1 h2
    · exact move_cat_inv f rc.1 rc.2 hw hp h1
    · exact ih _ (move_cat_inv f rc.1 rc.2 hw hp h1).1 (move_cat_inv f rc.1 rc.2 hw hp h1).2
    · exact ih f hw hp

theorem proceed_cats_turn_inv (f : Field) (hw : Wf f) (hp : PlayerInv f) :
    Wf (proceed_cats_turn f) ∧ PlayerInv (proceed_cats_turn f) :=
  proceed_go_inv scan_cells f hw hp

/-! ### move_player preserves the player invariant -/

theorem move_player_inv (f : Field) (d : String) (rng rng' : List Nat) (f' : Field)
    (hw : Wf f) (hp : PlayerInv f)
    (heq : move_player f d rng = Except.ok (f', rng')) :
    Wf f' ∧ PlayerInv f' := by
  unfold move_player at heq
  split_ifs at heq
  all_goals
    first
      | exact Except.noConfusion heq
      | (have h2 : (move_objects f ((DIRECTIONS.lookup d).getD "") rng).1 = f' := by
           rw [Except.ok.inj heq]
         rw [← h2]
         exact (move_objects_inv f _ rng hw hp))
      | (obtain ⟨hf, hr⟩ := Prod.mk.inj (Except.ok.inj heq)
         subst hf
         exact ⟨hw, hp⟩)

/-! ### Invariant of every reachable field -/

theorem reachable_inv (f : Field) (h : Reachable f) : Wf f ∧ PlayerInv f := by
  induction h with
  | init rng fuel f0 heq =>
    have hbase : Wf generate_clear ∧ PlayerInv generate_clear := by
      constructor <;> decide
    unfold GameField_init at heq
    cases hc : generate_cats generate_clear rng fuel with
    | none => rw [hc] at heq; simp at heq
    | some fr =>
      rw [hc] at heq
      simp only at heq
      cases ho : generate_obstacles fr.1 fr.2 fuel with
      | none => rw [ho] at heq; simp at heq
      | some fr2 =>
        rw [ho] at heq
        simp only at heq
        have hf0 : fr2.1 = f0 := by simpa using heq
        have h1 := generate_cats_loop_inv fuel generate_clear 1 rng fr.2 fr.1
          hbase.1 hbase.2 hc
        have h2 := generate_obstacles_loop_inv fuel fr.1 3 fr.2 fr2.2 fr2.1
          h1.1 h1.2 ho
        rw [← hf0]
        exact h2
  | move f0 d rng rng' f' hr heq ih =>
    exact move_player_inv f0 d rng rng' f' ih.1 ih.2 heq
  | cats f0 hr ih =>
    exact proceed_cats_turn_inv f0 ih.1 ih.2
  | gen f0 rng rng' fuel f' hr heq ih =>
    exact generate_cats_loop_inv fuel f0 1 rng rng' f' ih.1 ih.2 heq

/-! ### Counting symbols -/

theorem countP_listModify (p : α → Bool) (l : List α) (i : Nat) (g : α → α) (d : α)
    (hi : i < l.length) (hold : p (l.getD i d) = false)
    (hnew : p (g (l.getD i d)) = true) :
    (listModify l i g).countP p = l.countP p + 1 := by
  induction l generalizing i with
  | nil => exact absurd hi (by simp)
  | cons a as ih =>
    cases i with
    | zero =>
      simp only [List.getD_cons_zero] at hold hnew
      simp [listModify, List.countP_cons, hold, hnew]
    | succ n =>
      simp only [List.getD_cons_succ] at hold hnew
      simp only [listModify, List.countP_cons]
      rw [ih n (by simpa using hi) hold hnew]
      omega

theorem sum_map_listModify (l : List α) (h : α → Nat) (i : Nat) (g : α → α) (d : α)
    (hi : i < l.length) (hdelta : h (g (l.getD i d)) = h (l.getD i d) + 1) :
    ((listModify l i g).map h).sum = (l.map h).sum + 1 := by
  induction l generalizing i with
  | nil => exact absurd hi (by simp)
  | cons a as ih =>
    cases i with
    | zero =>
      simp only [List.getD_cons_zero] at hdelta
      simp [listModify, hdelta]
      omega
    | succ n =>
      simp only [List.getD_cons_succ] at hdelta
      simp only [listModify, List.map_cons, List.sum_cons]
      rw [ih n (by simpa using hi) hdelta]
      omega

theorem countSymbol_setData_add (f : Field) (x y : Nat) (s : String) (hw : Wf f)
    (hx : x < FIELD_SIZE) (hy : y < FIELD_SIZE)
    (hold : (getPos f x y).data ≠ s) :
    countSymbol (setData f x y s) s = countSymbol f s + 1 := by
  unfold countSymbol setData
  apply sum_map_listModify f _ x _ []
  · rw [hw.1]; exact hx
  · apply countP_listModify _ _ y _ defaultPos
    · rw [hw.2 x hx]; exact hy
    · simp only [beq_eq_false_iff_ne, ne_eq]
      exact hold
    · simp

/-! ### The cat spawn loop adds exactly the requested number of cats -/

theorem generate_cats_loop_count (fuel : Nat) :
    ∀ (f : Field) (number : Nat) (rng rng' : List Nat) (f' : Field),
      Wf f →
      generate_cats_loop f number rng fuel = some (f', rng') →
      countCats f' = countCats f + number := by
  induction fuel with
  | zero =>
    intro f number rng rng' f' hw heq
    rw [generate_cats_loop_zero] at heq
    by_cases hn : number = 0
    · subst hn
      rw [if_pos rfl] at heq
      obtain ⟨rfl, rfl⟩ := Prod.mk.inj (Option.some.inj heq)
      omega
    · rw [if_neg hn] at heq
      exact absurd heq (by simp)
  | succ m ih =>
    intro f number rng rng' f' hw heq
    rw [generate_cats_loop_succ] at heq
    by_cases hn : number = 0
    · subst hn
      rw [if_pos rfl] at heq
      obtain ⟨rfl, rfl⟩ := Prod.mk.inj (Option.some.inj heq)
      omega
    · rw [if_neg hn] at heq
      split_ifs at heq with h1 h2
      · exact ih f number _ rng' f' hw heq
      · exact ih f number _ rng' f' hw heq
      · have hE : (getPos f (catSpawnPos rng).1 (catSpawnPos rng).2).data = EMPTY_SYMBOL :=
          not_not.mp h1
        have hcount := ih _ (number - 1) _ rng' f'
          (Wf_setData f _ _ _ hw) heq
        rw [hcount]
        have hadd : countCats (setData f (catSpawnPos rng).1 (catSpawnPos rng).2 CAT_SYMBOL)
            = countCats f + 1 := by
          unfold countCats
          exact countSymbol_setData_add f _ _ _ hw (catSpawnPos_lt rng).1
            (catSpawnPos_lt rng).2 (by rw [hE]; decide)
        rw [hadd]
        omega

/-! ### The obstacle spawn loop: count and frame -/

theorem generate_obstacles_loop_props (fuel : Nat) :
    ∀ (f : Field) (number : Nat) (rng rng' : List Nat) (f' : Field),
      Wf f →
      generate_obstacles_loop f number rng fuel = some (f', rng') →
      countObstacles f' = countObstacles f + number ∧
      (∀ a b : Nat, (getPos f a b).data ≠ EMPTY_SYMBOL → getPos f' a b = getPos f a b) := by
  induction fuel with
  | zero =>
    intro f number rng rng' f' hw heq
    rw [generate_obstacles_loop_zero] at heq
    by_cases hn : number = 0
    · subst hn
      rw [if_pos rfl] at heq
      obtain ⟨rfl, rfl⟩ := Prod.mk.inj (Option.some.inj heq)
      exact ⟨by omega, fun a b _ => rfl⟩
    · rw [if_neg hn] at heq
      exact absurd heq (by simp)
  | succ m ih =>
    intro f number rng rng' f' hw heq
    rw [generate_obstacles_loop_succ] at heq
    by_cases hn : number = 0
    · subst hn
      rw [if_pos rfl] at heq
      obtain ⟨rfl, rfl⟩ := Prod.mk.inj (Option.some.inj heq)
      exact ⟨by omega, fun a b _ => rfl⟩
    · rw [if_neg hn] at heq
      split_ifs at heq with h1
      · exact ih f number _ rng' f' hw heq
      · have hE : (getPos f (obstacleSpawnPos rng).1 (obstacleSpawnPos rng).2).data
            = EMPTY_SYMBOL := not_not.mp h1
        have hrec := ih _ (number - 1) _ rng' f'
          (Wf_setData f _ _ _ hw) heq
        constructor
        · rw [hrec.1]
          have hadd : countObstacles
              (setData f (obstacleSpawnPos rng).1 (obstacleSpawnPos rng).2 OBSTACLE_SYMBOL)
              = countObstacles f + 1 := by
            unfold countObstacles
            exact countSymbol_setData_add f _ _ _ hw (obstacleSpawnPos_lt rng).1
              (obstacleSpawnPos_lt rng).2 (by rw [hE]; decide)
          rw [hadd]
          omega
        · intro a b hab
          have hne : ¬(a = (obstacleSpawnPos rng).1 ∧ b = (obstacleSpawnPos rng).2) := by
            rintro ⟨rfl, rfl⟩
            exact hab hE
          have hstep : getPos (setData f (obstacleSpawnPos rng).1 (obstacleSpawnPos rng).2
              OBSTACLE_SYMBOL) a b = getPos f a b :=
            getPos_setData_ne f _ _ _ a b hne
          rw [← hstep]
          exact hrec.2 a b (by rw [hstep]; exact hab)

/-! ### A cat in an already-scanned cell is not moved again -/

theorem proceed_go_preserves_scanned (cells : List (Nat × Nat)) :
    ∀ (f : Field) (a b : Nat), (a, b) ∉ cells →
      (getPos f a b).data = CAT_SYMBOL →
      (getPos (proceed_go f cells) a b).data = CAT_SYMBOL := by
  induction cells with
  | nil => intro f a b _ h; exact h
  | cons rc rest ih =>
    intro f a b hni h
    simp only [proceed_go]
    have hne : ¬(a = rc.1 ∧ b = rc.2) := by
      rintro ⟨rfl, rfl⟩
      exact hni (by simp)
    have hpres : getPos (move_cat f rc.1 rc.2) a b = getPos f a b :=
      getPos_move_cat_other f rc.1 rc.2 a b hne (by rw [h]; decide)
    split_ifs with h1 h2
    · rw [hpres]; exact h
    · exact ih _ a b (fun hm => hni (List.mem_cons_of_mem _ hm)) (by rw [hpres]; exact h)
    · exact ih f a b (fun hm => hni (List.mem_cons_of_mem _ hm)) h

/-! ### Concrete fields used by counterexamples and witnesses -/

/-- Cell immediately adjacent to the center that move_player checks for the
given direction. -/
def adjacentCell (d : String) : Nat × Nat :=
  if d = "left" then (MIDDLE_POS, MIDDLE_POS - 1)
  else if d = "right" then (MIDDLE_POS, MIDDLE_POS + 1)
  else if d = "up" then (MIDDLE_POS - 1, MIDDLE_POS)
  else (MIDDLE_POS + 1, MIDDLE_POS)

/-- A clear field with an obstacle directly left of the player. -/
def blockedField : Field := setData generate_clear 2 1 OBSTACLE_SYMBOL

/-- A clear field with an obstacle left of the player and a cat directly
above the player. -/
def capturedField : Field :=
  setData (setData generate_clear 2 1 OBSTACLE_SYMBOL) 1 2 CAT_SYMBOL

/-- A clear field with a single cat in the bottom-left corner. -/
def cornerCatField : Field := setData generate_clear 4 0 CAT_SYMBOL

/-- The field GameField construction produces from the random stream
[0, 0, 1, 1, 1, 2, 1, 3]: a cat at (0, 0) and obstacles at (1, 1), (1, 2)
and (1, 3). -/
def initField : Field :=
  setData (setData (setData (setData generate_clear 0 0 CAT_SYMBOL)
    1 1 OBSTACLE_SYMBOL) 1 2 OBSTACLE_SYMBOL) 1 3 OBSTACLE_SYMBOL

/-- C1: on every field reachable by game construction, player moves, cat
turns and cat spawning, a cell holds the player symbol exactly when it is
the center cell (MIDDLE_POS, MIDDLE_POS) — there is exactly one player
cell and it never moves. -/
theorem player_fixed_at_center_of_reachable (f : Field) (h : Reachable f) :
    PlayerInv f :=
  (reachable_inv f h).2

theorem player_fixed_at_center_of_reachable_witness :
    (getPos initField MIDDLE_POS MIDDLE_POS).data = PLAYER_SYMBOL :=
  ((player_fixed_at_center_of_reachable initField
    (Reachable.init [0, 0, 1, 1, 1, 2, 1, 3] 4 initField (by decide)))
    MIDDLE_POS (by decide) MIDDLE_POS (by decide)).mpr ⟨rfl, rfl⟩

/-- C2 counterexample: with a single cat at (4, 0) on an otherwise clear
board, one move_cat application sends it to (4, 1), but a full turn of cat
processing leaves no cat at (4, 1) and a cat at (3, 2): the live row-major
scan re-processed the same cat after it moved into a not-yet-scanned cell,
so the processing is not a fold over a snapshot with each cat moved at
most once. -/
theorem cats_scan_revisits_moved_cat_cex :
    (getPos (move_cat cornerCatField 4 0) 4 1).data = CAT_SYMBOL ∧
    (getPos (proceed_cats_turn cornerCatField) 4 1).data ≠ CAT_SYMBOL ∧
    (getPos (proceed_cats_turn cornerCatField) 3 2).data = CAT_SYMBOL := by
  decide

/-- C2 (amended): the cat processing of a turn is the row-major live scan
proceed_go over scan_cells, not a snapshot fold; a cat that moves into a
not-yet-scanned cell is processed again, but a cat standing in a cell that
is not among the remaining scan cells is never moved for the rest of the
turn. -/
theorem cats_scan_live_board_scanned_cell_stable (cells : List (Nat × Nat))
    (f : Field) (a b : Nat) (hni : (a, b) ∉ cells)
    (hcat : (getPos f a b).data = CAT_SYMBOL) :
    (getPos (proceed_go f cells) a b).data = CAT_SYMBOL ∧
    proceed_cats_turn f = proceed_go f scan_cells :=
  ⟨proceed_go_preserves_scanned cells f a b hni hcat, rfl⟩

theorem cats_scan_live_board_scanned_cell_stable_witness :
    (getPos (proceed_go (setData generate_clear 1 1 CAT_SYMBOL) [(0, 0)]) 1 1).data
      = CAT_SYMBOL ∧
    proceed_cats_turn (setData generate_clear 1 1 CAT_SYMBOL)
      = proceed_go (setData generate_clear 1 1 CAT_SYMBOL) scan_cells :=
  cats_scan_live_board_scanned_cell_stable [(0, 0)]
    (setData generate_clear 1 1 CAT_SYMBOL) 1 1 (by decide) (by decide)

/-- C3 counterexample: with an obstacle immediately left of the player the
direction left is blocked, yet a full turn of the message handler still
changes the board (cats still move and a new cat is spawned), so the
reported render is not the pre-turn render. -/
theorem blocked_turn_still_mutates_cex :
    (getPos blockedField MIDDLE_POS (MIDDLE_POS - 1)).data ≠ EMPTY_SYMBOL ∧
    (proceed_turn blockedField "left" [0, 0] 1).isSome = true ∧
    (proceed_turn blockedField "left" [0, 0] 1).map (fun fr => render fr.1) ≠
      some (render blockedField) := by
  decide

/-- C3 (amended): when the adjacent cell in a valid direction is
non-empty, move_player itself changes nothing — it returns the board and
the random stream unchanged; the rest of the turn (cat movement and cat
spawning) still runs afterward. -/
theorem blocked_move_player_is_noop (f : Field) (d : String) (rng : List Nat)
    (hd : d = "left" ∨ d = "right" ∨ d = "up" ∨ d = "down")
    (hblocked : (getPos f (adjacentCell d).1 (adjacentCell d).2).data ≠ EMPTY_SYMBOL) :
    move_player f d rng = Except.ok (f, rng) := by
  rcases hd with rfl | rfl | rfl | rfl
  · have hb2 : (getPos f MIDDLE_POS (MIDDLE_POS - 1)).data ≠ EMPTY_SYMBOL := hblocked
    unfold move_player
    rw [if_neg (by decide), if_pos rfl, if_neg hb2]
  · have hb2 : (getPos f MIDDLE_POS (MIDDLE_POS + 1)).data ≠ EMPTY_SYMBOL := hblocked
    unfold move_player
    rw [if_neg (by decide), if_neg (by decide), if_pos rfl, if_neg hb2]
  · have hb2 : (getPos f (MIDDLE_POS - 1) MIDDLE_POS).data ≠ EMPTY_SYMBOL := hblocked
    unfold move_player
    rw [if_neg (by decide), if_neg (by decide), if_neg (by decide), if_pos rfl,
      if_neg hb2]
  · have hb2 : (getPos f (MIDDLE_POS + 1) MIDDLE_POS).data ≠ EMPTY_SYMBOL := hblocked
    unfold move_player
    rw [if_neg (by decide), if_neg (by decide), if_neg (by decide), if_neg (by decide),
      if_pos rfl, if_neg hb2]

theorem blocked_move_player_is_noop_witness :
    move_player blockedField "left" [] = Except.ok (blockedField, []) :=
  blocked_move_player_is_noop blockedField "left" [] (Or.inl rfl) (by decide)

/-- C4 counterexample: on a board where a cat is already adjacent to the
player (capture), a full turn still spawns a new cat: the cat count rises
from 1 to 2 even though the reported outcome is game over. -/
theorem spawn_runs_even_after_capture_cex :
    countCats capturedField = 1 ∧
    (proceed_turn capturedField "left" [0, 0] 1).map
      (fun fr => (countCats fr.1, is_game_over fr.1)) = some (2, true) := by
  decide

/-- C4 (amended): whenever the cat spawn loop completes on a well-formed
field, it adds exactly one cat — the turn handler invokes it
unconditionally, whether or not the game is over, so capture skips only
the remaining cat movement, never the spawn. -/
theorem spawn_after_turn_adds_one_cat_unconditionally (f : Field) (rng rng' : List Nat)
    (fuel : Nat) (f' : Field) (hw : Wf f)
    (heq : generate_cats f rng fuel = some (f', rng')) :
    countCats f' = countCats f + 1 :=
  generate_cats_loop_count fuel f 1 rng rng' f' hw heq

theorem spawn_after_turn_adds_one_cat_unconditionally_witness :
    countCats (setData generate_clear 0 0 CAT_SYMBOL) = countCats generate_clear + 1 :=
  spawn_after_turn_adds_one_cat_unconditionally generate_clear [0, 0] [] 1
    (setData generate_clear 0 0 CAT_SYMBOL) (by decide) (by decide)

/-- C5: the code bug at the failing input.  After move_objects 'up' on a
freshly generated clear field (whose coordinates are consistent), the cell
now in row 0, column FIELD_SIZE - 1 still stores x = 1: the renumbering
loops of the vertical branches run only over range(FIELD_SIZE - 1) columns,
so the last column keeps its stale row coordinate and the claimed
coordinate consistency fails. -/
theorem vertical_shift_leaves_stale_row_coordinate :
    (getPos (move_objects generate_clear "up" [0]).1 0 (FIELD_SIZE - 1)).x = 1 ∧
    ¬(∀ r : Nat, r < FIELD_SIZE → ∀ c : Nat, c < FIELD_SIZE →
        (getPos (move_objects generate_clear "up" [0]).1 r c).x = (r : Int) ∧
        (getPos (move_objects generate_clear "up" [0]).1 r c).y = (c : Int)) := by
  decide

/-- C7: is_game_over is true exactly when some in-range cell at Manhattan
distance 1 from the center holds a cat; a cat at distance 2 or more, or
any other configuration, yields false.  The query is a pure function of
the field. -/
theorem is_game_over_iff_adjacent_cat (f : Field) :
    is_game_over f = true ↔
      ∃ x y : Nat, x < FIELD_SIZE ∧ y < FIELD_SIZE ∧
        ((x : Int) - (MIDDLE_POS : Int)).natAbs +
          ((y : Int) - (MIDDLE_POS : Int)).natAbs = 1 ∧
        (getPos f x y).data = CAT_SYMBOL := by
  unfold is_game_over POSITIONS_TO_CHECK_CATS
  simp only [List.any_cons, List.any_nil, Bool.or_false, Bool.or_eq_true, beq_iff_eq]
  constructor
  · rintro (h | h | h | h)
    · exact ⟨MIDDLE_POS, MIDDLE_POS - 1, by decide, by decide, by decide, h⟩
    · exact ⟨MIDDLE_POS, MIDDLE_POS + 1, by decide, by decide, by decide, h⟩
    · exact ⟨MIDDLE_POS - 1, MIDDLE_POS, by decide, by decide, by decide, h⟩
    · exact ⟨MIDDLE_POS + 1, MIDDLE_POS, by decide, by decide, by decide, h⟩
  · rintro ⟨x, y, hx, hy, hd, hc⟩
    have hx5 : x < 5 := hx
    have hy5 : y < 5 := hy
    have hd2 : ((x : Int) - 2).natAbs + ((y : Int) - 2).natAbs = 1 := hd
    have hcases : (x = 2 ∧ y = 1) ∨ (x = 2 ∧ y = 3) ∨
        (x = 1 ∧ y = 2) ∨ (x = 3 ∧ y = 2) := by omega
    rcases hcases with ⟨rfl, rfl⟩ | ⟨rfl, rfl⟩ | ⟨rfl, rfl⟩ | ⟨rfl, rfl⟩
    · exact Or.inl hc
    · exact Or.inr (Or.inl hc)
    · exact Or.inr (Or.inr (Or.inl hc))
    · exact Or.inr (Or.inr (Or.inr hc))

/-- C8 counterexample: the obstacle spawner places an obstacle at the edge
cell (0, 0) (row 0 is an edge row), refuting the claim that every obstacle
lands on an interior coordinate. -/
theorem obstacle_spawn_on_edge_cex :
    (generate_obstacles_loop generate_clear 1 [0, 0] 1).map
      (fun fr => (getPos fr.1 0 0).data) = some OBSTACLE_SYMBOL := by
  decide

/-- C8 (amended): the obstacle spawner draws uniformly from the whole
board (edges included); whenever its retry loop completes on a well-formed
field it has placed exactly the requested number of obstacles, each on a
cell that was empty at placement time — every non-empty cell is untouched. -/
theorem obstacles_spawn_anywhere_on_empty_cells (f : Field) (n : Nat)
    (rng rng' : List Nat) (fuel : Nat) (f' : Field) (hw : Wf f)
    (heq : generate_obstacles_loop f n rng fuel = some (f', rng')) :
    countObstacles f' = countObstacles f + n ∧
    (∀ a b : Nat, (getPos f a b).data ≠ EMPTY_SYMBOL → getPos f' a b = getPos f a b) :=
  generate_obstacles_loop_props fuel f n rng rng' f' hw heq

theorem obstacles_spawn_anywhere_on_empty_cells_witness :
    countObstacles (setData generate_clear 0 0 OBSTACLE_SYMBOL)
      = countObstacles generate_clear + 1 ∧
    (∀ a b : Nat, (getPos generate_clear a b).data ≠ EMPTY_SYMBOL →
      getPos (setData generate_clear 0 0 OBSTACLE_SYMBOL) a b = getPos generate_clear a b) :=
  obstacles_spawn_anywhere_on_empty_cells generate_clear 1 [0, 0] [] 1
    (setData generate_clear 0 0 OBSTACLE_SYMBOL) (by decide) (by decide)

/-- C9: every direction string other than left, right, up and down makes
move_player fail with the invalid-direction error before any state is
produced, and the whole turn handler then yields no new state — the
caller's board is untouched. -/
theorem invalid_direction_rejected_before_mutation (f : Field) (d : String)
    (rng : List Nat) (fuel : Nat)
    (h : ¬(d = "left" ∨ d = "right" ∨ d = "up" ∨ d = "down")) :
    move_player f d rng = Except.error "invalid direction" ∧
    proceed_turn f d rng fuel = none := by
  push_neg at h
  have hlk : (DIRECTIONS.lookup d).isNone = true := by
    have e1 : (d == "left") = false := beq_eq_false_iff_ne.mpr h.1
    have e2 : (d == "right") = false := beq_eq_false_iff_ne.mpr h.2.1
    have e3 : (d == "up") = false := beq_eq_false_iff_ne.mpr h.2.2.1
    have e4 : (d == "down") = false := beq_eq_false_iff_ne.mpr h.2.2.2
    unfold DIRECTIONS
    simp [List.lookup, e1, e2, e3, e4]
  have h1 : move_player f d rng = Except.error "invalid direction" := by
    unfold move_player
    rw [if_pos hlk]
  refine ⟨h1, ?_⟩
  unfold proceed_turn
  rw [h1]

theorem invalid_direction_rejected_before_mutation_witness :
    move_player generate_clear "north" [] = Except.error "invalid direction" ∧
    proceed_turn generate_clear "north" [] 0 = none :=
  invalid_direction_rejected_before_mutation generate_clear "north" [] 0 (by decide)

/-- Safety property of one pursuit step: the selected destination is the
cat's own cell or an in-range cell that held the empty symbol before the
move, and every other non-empty cell is left exactly as it was. -/
def MoveCatSafe (f : Field) (r c : Nat) : Prop :=
  ((chooseTarget f r c).1 = ((r : Int), (c : Int)) ∨
    (0 ≤ (chooseTarget f r c).1.1 ∧ (chooseTarget f r c).1.1 < (FIELD_SIZE : Int) ∧
     0 ≤ (chooseTarget f r c).1.2 ∧ (chooseTarget f r c).1.2 < (FIELD_SIZE : Int) ∧
     (getPos f (chooseTarget f r c).1.1.toNat (chooseTarget f r c).1.2.toNat).data
       = EMPTY_SYMBOL)) ∧
  ∀ a b : Nat, ¬(a = r ∧ b = c) → (getPos f a b).data ≠ EMPTY_SYMBOL →
    getPos (move_cat f r c) a b = getPos f a b

/-- C10: move_cat writes the cat symbol only to the cat's own origin cell
or to an in-range cell that was empty immediately before the move; in
particular it never overwrites the player, an obstacle or another cat, and
every candidate is bounds-checked before it is read or written. -/
theorem move_cat_writes_only_origin_or_empty (f : Field) (r c : Nat)
    (hr : r < FIELD_SIZE) (hc : c < FIELD_SIZE)
    (hcat : (getPos f r c).data = CAT_SYMBOL) :
    MoveCatSafe f r c :=
  ⟨chooseTarget_spec f r c,
   fun a b hne hd => getPos_move_cat_other f r c a b hne hd⟩

theorem move_cat_writes_only_origin_or_empty_witness :
    MoveCatSafe cornerCatField 4 0 :=
  move_cat_writes_only_origin_or_empty cornerCatField 4 0 (by decide) (by decide) (by decide)

/-! ### Greedy selection of the pursuit AI (C6) -/

/-- Manhattan distance of a coordinate pair to the board center.  When the
center cell stores its own coordinates (MIDDLE_POS, MIDDLE_POS), this is
exactly the distance the source computes with Position.manhattan. -/
def centerDist (q : Int × Int) : Int :=
  |(MIDDLE_POS : Int) - q.1| + |(MIDDLE_POS : Int) - q.2|

/-- A candidate cell is retained by the move_cat scan exactly when it is
in range and currently empty. -/
def validCand (f : Field) (q : Int × Int) : Bool :=
  decide (¬(q.1 < 0 ∨ q.1 ≥ (FIELD_SIZE : Int) ∨ q.2 < 0 ∨ q.2 ≥ (FIELD_SIZE : Int))) &&
    ((getPos f q.1.toNat q.2.toNat).data == EMPTY_SYMBOL)

/-- One scan step of move_cat, abstracted over the validity test: an
invalid candidate keeps the accumulator, a valid one replaces it exactly
on strict distance improvement. -/
def stepB (v : Bool) (q : Int × Int) (nd : Int) (acc : (Int × Int) × Int) :
    (Int × Int) × Int :=
  if v then (if nd < acc.2 then (q, nd) else acc) else acc

/-- The four-step candidate scan of move_cat as a function of the cat
coordinates and the four validity bits, in the fixed order left, right,
up, down, starting from the stay candidate. -/
def chooseB (r c : Nat) (vL vR vU vD : Bool) : (Int × Int) × Int :=
  stepB vD ((r : Int) + 1, (c : Int)) (centerDist ((r : Int) + 1, (c : Int)))
    (stepB vU ((r : Int) - 1, (c : Int)) (centerDist ((r : Int) - 1, (c : Int)))
      (stepB vR ((r : Int), (c : Int) + 1) (centerDist ((r : Int), (c : Int) + 1))
        (stepB vL ((r : Int), (c : Int) - 1) (centerDist ((r : Int), (c : Int) - 1))
          (((r : Int), (c : Int)), centerDist ((r : Int), (c : Int))))))

theorem catStep_eq_stepB (f : Field)
    (hx : (getPos f MIDDLE_POS MIDDLE_POS).x = (MIDDLE_POS : Int))
    (hy : (getPos f MIDDLE_POS MIDDLE_POS).y = (MIDDLE_POS : Int))
    (acc : (Int × Int) × Int) (q : Int × Int) :
    catStep f acc q = stepB (validCand f q) q (centerDist q) acc := by
  unfold catStep stepB validCand Position.manhattan centerDist
  rw [hx, hy]
  by_cases h1 : q.1 < 0 ∨ q.1 ≥ (FIELD_SIZE : Int) ∨ q.2 < 0 ∨ q.2 ≥ (FIELD_SIZE : Int)
  · simp [h1]
  · by_cases h2 : (getPos f q.1.toNat q.2.toNat).data = EMPTY_SYMBOL
    · simp [h1, h2]
    · simp [h1, h2]

theorem chooseTarget_eq_chooseB (f : Field) (r c : Nat)
    (hx : (getPos f MIDDLE_POS MIDDLE_POS).x = (MIDDLE_POS : Int))
    (hy : (getPos f MIDDLE_POS MIDDLE_POS).y = (MIDDLE_POS : Int)) :
    chooseTarget f r c =
      chooseB r c (validCand f ((r : Int), (c : Int) - 1))
        (validCand f ((r : Int), (c : Int) + 1))
        (validCand f ((r : Int) - 1, (c : Int)))
        (validCand f ((r : Int) + 1, (c : Int))) := by
  unfold chooseTarget cat_candidates
  simp only [List.foldl]
  rw [catStep_eq_stepB f hx hy, catStep_eq_stepB f hx hy, catStep_eq_stepB f hx hy,
    catStep_eq_stepB f hx hy]
  unfold chooseB Position.manhattan centerDist
  rw [hx, hy]

/-- Part one of the greedy-selection property: the selected destination
strictly improves the distance to the center or is the stay cell. -/
def PursuitImproves (r c : Nat) (p : Int × Int) : Prop :=
  p = ((r : Int), (c : Int)) ∨ centerDist p < centerDist ((r : Int), (c : Int))

/-- Part two: the cat stays exactly when no valid candidate strictly
improves the distance. -/
def PursuitStayIff (r c : Nat) (vL vR vU vD : Bool) (p : Int × Int) : Prop :=
  (p = ((r : Int), (c : Int))) ↔
    ((vL = true → centerDist ((r : Int), (c : Int) - 1) ≥ centerDist ((r : Int), (c : Int))) ∧
     (vR = true → centerDist ((r : Int), (c : Int) + 1) ≥ centerDist ((r : Int), (c : Int))) ∧
     (vU = true → centerDist ((r : Int) - 1, (c : Int)) ≥ centerDist ((r : Int), (c : Int))) ∧
     (vD = true → centerDist ((r : Int) + 1, (c : Int)) ≥ centerDist ((r : Int), (c : Int))))

/-- Part three: the selected destination is at least as close to the
center as the stay cell and as every valid candidate. -/
def PursuitMinimal (r c : Nat) (vL vR vU vD : Bool) (p : Int × Int) : Prop :=
  centerDist p ≤ centerDist ((r : Int), (c : Int)) ∧
  (vL = true → centerDist p ≤ centerDist ((r : Int), (c : Int) - 1)) ∧
  (vR = true → centerDist p ≤ centerDist ((r : Int), (c : Int) + 1)) ∧
  (vU = true → centerDist p ≤ centerDist ((r : Int) - 1, (c : Int))) ∧
  (vD = true → centerDist p ≤ centerDist ((r : Int) + 1, (c : Int)))

/-- Part four: among equal-distance strictly-improving valid candidates,
the later one in the fixed order left, right, up, down is never selected —
the first seen wins. -/
def PursuitFirstWins (r c : Nat) (vL vR vU vD : Bool) (p : Int × Int) : Prop :=
  (vL = true → vR = true →
     centerDist ((r : Int), (c : Int) - 1) = centerDist ((r : Int), (c : Int) + 1) →
     centerDist ((r : Int), (c : Int) + 1) < centerDist ((r : Int), (c : Int)) →
     p ≠ ((r : Int), (c : Int) + 1)) ∧
  (vL = true → vU = true →
     centerDist ((r : Int), (c : Int) - 1) = centerDist ((r : Int) - 1, (c : Int)) →
     centerDist ((r : Int) - 1, (c : Int)) < centerDist ((r : Int), (c : Int)) →
     p ≠ ((r : Int) - 1, (c : Int))) ∧
  (vL = true → vD = true →
     centerDist ((r : Int), (c : Int) - 1) = centerDist ((r : Int) + 1, (c : Int)) →
     centerDist ((r : Int) + 1, (c : Int)) < centerDist ((r : Int), (c : Int)) →
     p ≠ ((r : Int) + 1, (c : Int))) ∧
  (vR = true → vU = true →
     centerDist ((r : Int), (c : Int) + 1) = centerDist ((r : Int) - 1, (c : Int)) →
     centerDist ((r : Int) - 1, (c : Int)) < centerDist ((r : Int), (c : Int)) →
     p ≠ ((r : Int) - 1, (c : Int))) ∧
  (vR = true → vD = true →
     centerDist ((r : Int), (c : Int) + 1) = centerDist ((r : Int) + 1, (c : Int)) →
     centerDist ((r : Int) + 1, (c : Int)) < centerDist ((r : Int), (c : Int)) →
     p ≠ ((r : Int) + 1, (c : Int))) ∧
  (vU = true → vD = true →
     centerDist ((r : Int) - 1, (c : Int)) = centerDist ((r : Int) + 1, (c : Int)) →
     centerDist ((r : Int) + 1, (c : Int)) < centerDist ((r : Int), (c : Int)) →
     p ≠ ((r : Int) + 1, (c : Int)))

instance (r c : Nat) (p : Int × Int) : Decidable (PursuitImproves r c p) := by
  unfold PursuitImproves; infer_instance

instance (r c : Nat) (vL vR vU vD : Bool) (p : Int × Int) :
    Decidable (PursuitStayIff r c vL vR vU vD p) := by
  unfold PursuitStayIff; infer_instance

instance (r c : Nat) (vL vR vU vD : Bool) (p : Int × Int) :
    Decidable (PursuitMinimal r c vL vR vU vD p) := by
  unfold PursuitMinimal; infer_instance

set_option maxHeartbeats 1600000 in
instance (r c : Nat) (vL vR vU vD : Bool) (p : Int × Int) :
    Decidable (PursuitFirstWins r c vL vR vU vD p) := by
  unfold PursuitFirstWins
  refine @instDecidableAnd _ _ ?_ (@instDecidableAnd _ _ ?_ (@instDecidableAnd _ _ ?_
    (@instDecidableAnd _ _ ?_ (@instDecidableAnd _ _ ?_ ?_)))) <;> infer_instance

/-- The full greedy-selection property of the pursuit scan. -/
def PursuitProp (r c : Nat) (vL vR vU vD : Bool) (p : Int × Int) : Prop :=
  PursuitImproves r c p ∧ PursuitStayIff r c vL vR vU vD p ∧
    PursuitMinimal r c vL vR vU vD p ∧ PursuitFirstWins r c vL vR vU vD p

instance (r c : Nat) (vL vR vU vD : Bool) (p : Int × Int) :
    Decidable (PursuitProp r c vL vR vU vD p) := by
  unfold PursuitProp; infer_instance

set_option maxHeartbeats 2000000 in
theorem chooseB_pursuit :
    ∀ (r c : Fin FIELD_SIZE) (vL vR vU vD : Bool),
      PursuitProp r.1 c.1 vL vR vU vD (chooseB r.1 c.1 vL vR vU vD).1 := by
  decide

/-- C6: with the center cell carrying its own coordinates, the pursuit
scan of move_cat is greedy with first-seen tie-breaking: the source
Manhattan distance to the center coincides with centerDist, and the
selected destination strictly improves the distance or is the stay cell,
stays exactly when no in-range empty neighbour improves, is at least as
close as the stay cell and as every valid candidate, and among
equal-distance improving candidates the first in the fixed order stay,
left, right, up, down wins. -/
theorem pursuit_moves_strictly_toward_center (f : Field) (r c : Nat)
    (hr : r < FIELD_SIZE) (hc : c < FIELD_SIZE)
    (hx : (getPos f MIDDLE_POS MIDDLE_POS).x = (MIDDLE_POS : Int))
    (hy : (getPos f MIDDLE_POS MIDDLE_POS).y = (MIDDLE_POS : Int)) :
    move_cat f r c = setData (setData f r c EMPTY_SYMBOL)
      (chooseTarget f r c).1.1.toNat (chooseTarget f r c).1.2.toNat CAT_SYMBOL ∧
    (∀ q : Int × Int, (getPos f MIDDLE_POS MIDDLE_POS).manhattan q = centerDist q) ∧
    PursuitProp r c (validCand f ((r : Int), (c : Int) - 1))
      (validCand f ((r : Int), (c : Int) + 1))
      (validCand f ((r : Int) - 1, (c : Int)))
      (validCand f ((r : Int) + 1, (c : Int)))
      (chooseTarget f r c).1 := by
  refine ⟨rfl, ?_, ?_⟩
  · intro q
    unfold Position.manhattan centerDist
    rw [hx, hy]
  · rw [chooseTarget_eq_chooseB f r c hx hy]
    exact chooseB_pursuit ⟨r, hr⟩ ⟨c, hc⟩ _ _ _ _

theorem pursuit_moves_strictly_toward_center_witness :
    move_cat generate_clear 0 2 = setData (setData generate_clear 0 2 EMPTY_SYMBOL)
      (chooseTarget generate_clear 0 2).1.1.toNat
      (chooseTarget generate_clear 0 2).1.2.toNat CAT_SYMBOL ∧
    (∀ q : Int × Int,
      (getPos generate_clear MIDDLE_POS MIDDLE_POS).manhattan q = centerDist q) ∧
    PursuitProp 0 2 (validCand generate_clear (((0 : Nat) : Int), ((2 : Nat) : Int) - 1))
      (validCand generate_clear (((0 : Nat) : Int), ((2 : Nat) : Int) + 1))
      (validCand generate_clear (((0 : Nat) : Int) - 1, ((2 : Nat) : Int)))
      (validCand generate_clear (((0 : Nat) : Int) + 1, ((2 : Nat) : Int)))
      (chooseTarget generate_clear 0 2).1 :=
  pursuit_moves_strictly_toward_center generate_clear 0 2 (by decide) (by decide)
    (by decide) (by decide)

end RunFromCats
